import Mathlib

/-!
# Marsarium: the gas-sequencing controller of `main.go`

A shallow embedding of the controller's state functions (`idle`, `countdown`,
`marsify`, `monitor`), their helpers (`updateDisplay`, `readPressure`) and the
indicator-blinker goroutine, together with the properties of the specification
that are settled on it.

* `float64` is embedded as IEEE-754 binary64 with round-to-nearest-even
  (`F64`): a finite value is a sign and a whole number of units of `2^-1074`.
* Hardware calls are embedded as operations on a `World` that holds the
  answers the devices will give (oracles), how many answers were consumed,
  and the chronological trace of the operations the control thread issued.
* A Go `panic` (never recovered in `main.go`) and a wait that never ends are
  explicit results (`Res.panic`, `Res.hang`).
-/

namespace Mars

/-! ## binary64 -/

/-- A `float64`. `fin neg u` is the finite value `(-1)^neg * u * 2^-1074`; every
finite binary64 number is such a multiple, and the representable ones are those
whose `u` has at most 53 significant bits and is at most `F64.maxUnits`. -/
inductive F64 where
  | nan : F64
  | inf (neg : Bool) : F64
  | fin (neg : Bool) (units : Nat) : F64
  deriving DecidableEq

namespace F64

/-- The largest finite binary64 value, `(2^53 - 1) * 2^971`, in units. -/
def maxUnits : Nat := (2 ^ 53 - 1) * 2 ^ 2045

/-- Bit-by-bit base-2 logarithm with a step budget (the budget is only there to
make the recursion structural). -/
def log2Aux : Nat → Nat → Nat
  | 0, _ => 0
  | fuel + 1, n => if n < 2 then 0 else log2Aux fuel (n / 2) + 1

/-- One step of the search for the leading bit: `p.1` is what is left of the
number and `p.2` the number of bits already shifted out; shift out `k` more
bits when at least `k + 1` are left. -/
def log2Step (p : Nat × Nat) (k : Nat) : Nat × Nat :=
  if 2 ^ k ≤ p.1 then (p.1 / 2 ^ k, p.2 + k) else p

/-- The position of the leading bit: `floor (log2 n)`, and `0` for `n = 0`.
Below `2^4096` (all binary64 arithmetic stays there) it is found in twelve
halving steps, above bit by bit. -/
@[irreducible]
def ilog2 (n : Nat) : Nat :=
  if n < 2 ^ 4096 then
    (List.foldl log2Step (n, 0) [2048, 1024, 512, 256, 128, 64, 32, 16, 8, 4, 2, 1]).2
  else log2Aux n n

/-- Round the non-negative rational `n / d` (in units of `2^-1074`) to the
nearest point of the binary64 grid, ties to the even significand. Below `2^53`
units the grid step is one unit; in the binade of `2^L` units it is
`2^(L-52)` units. -/
def roundUnits (n d : Nat) : Nat :=
  let s := ilog2 (n / d) - 52
  let D := d * 2 ^ s
  let q := n / D
  let r := n % D
  (if D < 2 * r ∨ (2 * r = D ∧ q % 2 = 1) then q + 1 else q) * 2 ^ s

/-- The binary64 nearest to `(-1)^neg * n / d` units: overflow gives infinity. -/
def ofMag (neg : Bool) (n d : Nat) : F64 :=
  if roundUnits n d ≤ maxUnits then fin neg (roundUnits n d) else inf neg

/-- The binary64 nearest to the non-negative rational `n / d`: the value of a
Go constant (constants are exact until they are converted to `float64`). -/
def ofRat (n d : Nat) : F64 := ofMag false (n * 2 ^ 1074) d

/-- Addition, `x + y`. -/
def add : F64 → F64 → F64
  | nan, _ => nan
  | _, nan => nan
  | inf a, inf b => if a = b then inf a else nan
  | inf a, fin _ _ => inf a
  | fin _ _, inf b => inf b
  | fin a x, fin b y =>
    if a = b then ofMag a (x + y) 1
    else if x = y then fin false 0
    else if y < x then ofMag a (x - y) 1
    else ofMag b (y - x) 1

/-- Multiplication, `x * y`. -/
def mul : F64 → F64 → F64
  | nan, _ => nan
  | _, nan => nan
  | inf a, inf b => inf (a != b)
  | inf a, fin b y => if y = 0 then nan else inf (a != b)
  | fin a x, inf b => if x = 0 then nan else inf (a != b)
  | fin a x, fin b y => ofMag (a != b) (x * y) (2 ^ 1074)

/-- Division, `x / y`. -/
def div : F64 → F64 → F64
  | nan, _ => nan
  | _, nan => nan
  | inf _, inf _ => nan
  | inf a, fin b _ => inf (a != b)
  | fin a _, inf b => fin (a != b) 0
  | fin a x, fin b y =>
    if y = 0 then (if x = 0 then nan else inf (a != b))
    else ofMag (a != b) (x * 2 ^ 1074) y

/-- The comparison `x < y`: false when either side is NaN, and `-0 < +0` is
false. -/
def lt : F64 → F64 → Bool
  | nan, _ => false
  | _, nan => false
  | inf a, inf b => a && !b
  | inf a, fin _ _ => a
  | fin _ _, inf b => !b
  | fin false x, fin false y => decide (x < y)
  | fin true x, fin true y => decide (y < x)
  | fin true x, fin false y => decide (x ≠ 0 ∨ y ≠ 0)
  | fin false _, fin true _ => false

/-- The comparison `x <= y`: false when either side is NaN. -/
def le : F64 → F64 → Bool
  | nan, _ => false
  | _, nan => false
  | inf a, inf b => a || !b
  | inf a, fin _ _ => a
  | fin _ _, inf b => !b
  | fin false x, fin false y => decide (x ≤ y)
  | fin true x, fin true y => decide (y ≤ x)
  | fin true _, fin false _ => true
  | fin false x, fin true y => decide (x = 0 ∧ y = 0)

/-- The comparison `x >= y`. -/
def ge (x y : F64) : Bool := le y x

/-- Neither NaN nor an infinity. -/
def isFinite : F64 → Bool
  | fin _ _ => true
  | _ => false

/-- The value is a number (not NaN). -/
def isNum : F64 → Bool
  | nan => false
  | _ => true

end F64

/-! ## Constants of `main.go` -/

/-- An untyped Go numeric constant: the exact rational `num / den`. Constant
expressions are evaluated exactly and rounded once, when used as `float64`. -/
structure Const where
  num : Nat
  den : Nat
  deriving DecidableEq

/-- Exact sum of two constants, as in the constant expression `CO2_MIX + N2_MIX`. -/
def Const.add (a b : Const) : Const := ⟨a.num * b.den + b.num * a.den, a.den * b.den⟩

/-- Conversion of a constant to `float64`. -/
def Const.toF64 (c : Const) : F64 := F64.ofRat c.num c.den

def AIR_RELAY : Nat := 0
def VACUUM_RELAY : Nat := 3
def FLUSH_TIME : Nat := 39
def RELAY_DELAY : Nat := 10
def CO2_RELAY : Nat := 1
def CO2_MIX : Const := ⟨96, 100⟩
def N2_RELAY : Nat := 2
def N2_MIX : Const := ⟨2, 100⟩
def Ar_RELAY : Nat := 3
def Ar_MIX : Const := ⟨2, 100⟩
def BUTTON_PIN : Nat := 14
def BUTTON_RELAY : Nat := 2

/-! ## Devices, events and the world -/

/-- The two relay banks of a `Marsarium`: `GasRelays` and `AuxRelays`. -/
inductive Bank where
  | gas
  | aux
  deriving DecidableEq

/-- The handles of `type Marsarium struct`, as device identifiers. The state
functions receive the struct by value and return it. -/
structure Marsarium where
  Sensor : Nat
  GasRelays : Nat
  AuxRelays : Nat
  Button : Nat
  Display : Nat
  deriving DecidableEq

/-- One successful `Sensor.Measurements()`, given by what `Sensor.Temperature`,
`Sensor.Humidity` and `Sensor.Pressure` compute from it. -/
structure Reading where
  temperature : F64
  humidity : F64
  pressure : F64
  deriving DecidableEq

/-- A text handed to `Display.Message`. `weather t h p` stands for
`fmt.Sprintf("%2.0fC, %2.0f", t, h) + "%RH, " + fmt.Sprintf("%3.0fhPa", p)`. -/
inductive Msg where
  | text (s : String)
  | weather (t h p : F64)
  deriving DecidableEq

/-- The case a `select` statement of `countdown` takes. -/
inductive Case where
  | timeChan
  | tickChan
  deriving DecidableEq

/-- One operation issued by a thread of the program, in the order issued. The
flag `ok` records whether the device reported success. -/
inductive Event where
  | buttonRead (ok : Bool)
  | measurements (ok : Bool)
  | displayClear (ok : Bool)
  | displaySetCursor (col row : Nat) (ok : Bool)
  | displayMessage (msg : Msg) (ok : Bool)
  | relaySet (bank : Bank) (pin : Nat) (value : Bool) (ok : Bool)
  | relayGet (bank : Bank) (pin : Nat) (value : Bool)
  | sleep (seconds : Nat)
  | newTicker (seconds : Nat)
  | newTimer (seconds : Nat)
  | tickerStop
  | goBlinker
  | stopSend
  deriving DecidableEq

/-- The next state function returned by a state function. -/
inductive StateFn where
  | idle
  | countdown
  | marsify
  | monitor
  deriving DecidableEq

/-- The hardware as seen by the control thread. The first five fields are the
answers the devices will give to the successive calls (`none` is a `nil`
error); the counters say how many answers were consumed; `trace` lists the
operations issued so far. -/
structure World where
  button : Nat → Except String Int
  sensor : Nat → Except String Reading
  displayErr : Nat → Option String
  relayErr : Nat → Option String
  cases : Nat → Case
  nButton : Nat
  nSensor : Nat
  nDisplay : Nat
  nRelay : Nat
  nCases : Nat
  trace : List Event

/-- How a computation of the control thread ends: it returns, it panics (the
process stops, nothing recovers), or it waits forever. -/
inductive Res (α : Type) where
  | ok (a : α) (w : World)
  | panic (msg : String) (w : World)
  | hang (w : World)

/-- The world in which a computation ended. -/
def Res.world {α : Type} : Res α → World
  | ok _ w => w
  | panic _ w => w
  | hang w => w

/-- Computations of the control thread. -/
def M (α : Type) : Type := World → Res α

/-- Sequencing: a panic or a hang ends the computation. -/
def M.bind {α β : Type} (x : M α) (f : α → M β) : M β := fun w =>
  match x w with
  | Res.ok a w1 => f a w1
  | Res.panic msg w1 => Res.panic msg w1
  | Res.hang w1 => Res.hang w1

instance : Monad M where
  pure a := fun w => Res.ok a w
  bind := M.bind

/-- Go's `panic(msg)`. -/
def goPanic {α : Type} (msg : String) : M α := fun w => Res.panic msg w

/-- A wait that never ends. -/
def hang {α : Type} : M α := fun w => Res.hang w

/-- Record an operation in the trace. -/
def World.log (w : World) (e : Event) : World := { w with trace := w.trace ++ [e] }

/-- An operation that only leaves a mark in the trace. -/
def emit (e : Event) : M Unit := fun w => Res.ok () (w.log e)

/-- Whether a Go `(value, error)` result has a `nil` error. -/
def succeeded {α : Type} : Except String α → Bool
  | Except.ok _ => true
  | Except.error _ => false

/-- The call `m.Button.Read()`. -/
def buttonRead : M (Except String Int) := fun w =>
  Res.ok (w.button w.nButton)
    ({ w with nButton := w.nButton + 1 }.log (Event.buttonRead (succeeded (w.button w.nButton))))

/-- The call `Sensor.Measurements()`. -/
def measurements : M (Except String Reading) := fun w =>
  Res.ok (w.sensor w.nSensor)
    ({ w with nSensor := w.nSensor + 1 }.log (Event.measurements (succeeded (w.sensor w.nSensor))))

/-- A call of the display, returning its error. -/
def displayOp (e : Bool → Event) : M (Option String) := fun w =>
  Res.ok (w.displayErr w.nDisplay)
    ({ w with nDisplay := w.nDisplay + 1 }.log (e (w.displayErr w.nDisplay).isNone))

/-- The call `m.Display.Clear()`. -/
def displayClear : M (Option String) := displayOp Event.displayClear

/-- The call `m.Display.SetCursor(col, row)`. -/
def displaySetCursor (col row : Nat) : M (Option String) :=
  displayOp (Event.displaySetCursor col row)

/-- The call `m.Display.Message(s)`. -/
def displayMessage (s : Msg) : M (Option String) := displayOp (Event.displayMessage s)

/-- The call `SetPin(pin, value)` on a relay bank, returning its error. -/
def relaySet (bank : Bank) (pin : Nat) (value : Bool) : M (Option String) := fun w =>
  Res.ok (w.relayErr w.nRelay)
    ({ w with nRelay := w.nRelay + 1 }.log
      (Event.relaySet bank pin value (w.relayErr w.nRelay).isNone))

/-- The case taken by the next `select` of `countdown`. -/
def select : M Case := fun w => Res.ok (w.cases w.nCases) { w with nCases := w.nCases + 1 }

/-! ## The functions of `main.go` -/

/-- The function `func updateDisplay(m Marsarium, s string)`. -/
def updateDisplay (s : Msg) : M Unit := do
  let err ← displayMessage s
  match err with
  | some e => goPanic (e ++ "\n")
  | none => pure ()

/-- The function `func readPressure(s *bme280.BME280) float64`. -/
def readPressure : M F64 := do
  let r ← measurements
  match r with
  | Except.error e => goPanic (e ++ "\n")
  | Except.ok v => pure v.pressure

/-- The function `func idle(m Marsarium) (sF stateFn, mNew Marsarium)`. -/
def idle (m : Marsarium) : M (StateFn × Marsarium) := do
  let r ← buttonRead
  match r with
  | Except.error e => goPanic (e ++ "\n")
  | Except.ok o =>
    -- Marsify button has been pressed - enter countdown.
    if o = 0 then pure (StateFn.countdown, m)
    -- No button press, remain idle.
    else pure (StateFn.idle, m)

/-- The loop `for !done { select { ... } }` of `countdown`; `fuel` bounds the
number of `select` statements executed, `count` is the variable `countdown`. -/
def countdown.loop : Nat → Int → M Unit
  | 0, _ => hang
  | fuel + 1, count => do
    let c ← select
    match c with
    | Case.timeChan => emit Event.tickerStop
    | Case.tickChan => do
      let _ ← displaySetCursor 17 3
      updateDisplay (Msg.text (toString count))
      countdown.loop fuel (count - 1)

/-- The function `func countdown(m Marsarium) (sF stateFn, mNew Marsarium)`. -/
def countdown (fuel : Nat) (m : Marsarium) : M (StateFn × Marsarium) := do
  emit (Event.newTicker 1)
  emit (Event.newTimer 5)
  let count : Int := 5
  let _ ← displayClear
  let _ ← displaySetCursor 0 0
  updateDisplay (Msg.text "Godspeed little fern")
  let _ ← displaySetCursor 0 3
  updateDisplay (Msg.text ("Marsification in " ++ toString count))
  let count := count - 1
  countdown.loop fuel count
  -- Countdown completed. Start marsifying.
  pure (StateFn.marsify, m)

/-- The loop `for i := 0; i < 10; i++ { atmo += readPressure(m.Sensor) }`, with
the number of iterations left. -/
def marsify.sum : Nat → F64 → M F64
  | 0, atmo => pure atmo
  | n + 1, atmo => do
    let p ← readPressure
    marsify.sum n (F64.add atmo p)

/-- Lines 130-138 of `marsify`: the warm-up read, `atmo := 0.0`, the loop that
adds ten readings, and `atmo = atmo / 10.0`. The value returned is `atmo`. -/
def marsify.calibrate : M F64 := do
  -- Warm up sensor.
  let _ ← readPressure
  -- Work out current atmospheric pressure.
  let atmo ← marsify.sum 10 (F64.ofRat 0 1)
  pure (F64.div atmo (F64.ofRat 10 1))

/-- A loop `for cond(readPressure(m.Sensor)) { }` with an empty body; `fuel`
bounds the number of iterations. -/
def marsify.wait (cond : F64 → Bool) : Nat → M Unit
  | 0 => hang
  | fuel + 1 => do
    let p ← readPressure
    if cond p then marsify.wait cond fuel else pure ()

/-- The function `func marsify(m Marsarium) (sF stateFn, mNew Marsarium)`: the control
thread. The goroutine it starts is `blinker` below. -/
def marsify (fuel : Nat) (m : Marsarium) : M (StateFn × Marsarium) := do
  let _ ← displayClear
  let _ ← displaySetCursor 0 0
  updateDisplay (Msg.text "**MARSIFYING**")
  emit (Event.newTicker 1)
  emit Event.goBlinker
  let atmo ← marsify.calibrate
  let _ ← relaySet Bank.aux VACUUM_RELAY true
  let _ ← relaySet Bank.gas AIR_RELAY true
  let _ ← relaySet Bank.gas CO2_RELAY true
  emit (Event.sleep FLUSH_TIME)
  let _ ← relaySet Bank.gas CO2_RELAY false
  marsify.wait (fun p => F64.lt (F64.mul atmo CO2_MIX.toF64) p) fuel
  let _ ← relaySet Bank.gas AIR_RELAY false
  let _ ← relaySet Bank.aux VACUUM_RELAY false
  let _ ← relaySet Bank.gas N2_RELAY true
  marsify.wait (fun p => F64.lt p (F64.mul atmo (CO2_MIX.add N2_MIX).toF64)) fuel
  let _ ← relaySet Bank.gas N2_RELAY false
  let _ ← relaySet Bank.gas Ar_RELAY true
  marsify.wait (fun p => F64.lt p atmo) fuel
  let _ ← relaySet Bank.gas Ar_RELAY false
  emit Event.stopSend
  let _ ← displayClear
  let _ ← displaySetCursor 0 0
  updateDisplay (Msg.text "Welcome to Mars.")
  let _ ← displaySetCursor 0 2
  updateDisplay (Msg.text "Current Weather:")
  pure (StateFn.monitor, m)

/-- The function `func monitor(m Marsarium) (sF stateFn, mNew Marsarium)`. -/
def monitor (m : Marsarium) : M (StateFn × Marsarium) := do
  let _ ← relaySet Bank.aux BUTTON_RELAY true
  let r ← measurements
  match r with
  | Except.ok v =>
    let _ ← displaySetCursor 0 3
    updateDisplay (Msg.weather v.temperature v.humidity (F64.div v.pressure (F64.ofRat 100 1)))
  | Except.error _ => pure ()
  emit (Event.sleep 1)
  pure (StateFn.monitor, m)

/-- One call `update(marsarium)` of the loop of `main`. -/
def step (fuel : Nat) : StateFn → Marsarium → M (StateFn × Marsarium)
  | StateFn.idle, m => idle m
  | StateFn.countdown, m => countdown fuel m
  | StateFn.marsify, m => marsify fuel m
  | StateFn.monitor, m => monitor m

/-- The first `n` iterations of `for { update, marsarium = update(marsarium) }`. -/
def mainLoop (fuel : Nat) : Nat → StateFn → Marsarium → M (StateFn × Marsarium)
  | 0, update, marsarium => pure (update, marsarium)
  | n + 1, update, marsarium => do
    let r ← step fuel update marsarium
    mainLoop fuel n r.1 r.2

/-! ## The indicator blinker -/

/-- The case a `select` of the blinker goroutine takes. -/
inductive BlinkCase where
  | tick
  | stop
  deriving DecidableEq

/-- Modelled from the spec: the relay bank behind `m.AuxRelays` (the driver
`pcal9535a` is a library): `getPin(id)` answers the value last given to
`setPin(id, _)`, and setting one pin leaves the others alone. The goroutine
started by `marsify` is a thread of its own, with a trace of its own;
`running` is false once it has returned. -/
structure Blinker where
  aux : Nat → Bool
  trace : List Event
  running : Bool

/-- One iteration of `for { select { case <-ticker.C: ...; case <-stop: return } }`
taking the case `c`; a goroutine that has returned does nothing. -/
def blinkerCase (b : Blinker) (c : BlinkCase) : Blinker :=
  if b.running then
    match c with
    | BlinkCase.tick =>
      -- Blink the Marsify button.
      let state := b.aux BUTTON_RELAY
      { b with
        aux := Function.update b.aux BUTTON_RELAY (!state)
        trace := b.trace ++ [Event.relayGet Bank.aux BUTTON_RELAY state,
          Event.relaySet Bank.aux BUTTON_RELAY (!state) true] }
    | BlinkCase.stop => { b with running := false }
  else b

/-- The goroutine `go func() { ... }()` of `marsify`, run over the cases its
`select` takes. -/
def blinker (b : Blinker) (cs : List BlinkCase) : Blinker := cs.foldl blinkerCase b

/-! ## Observations on traces -/

/-- A relay write: bank, pin, value. -/
abbrev Write := Bank × Nat × Bool

/-- The relay writes of a trace, in order. -/
def relayWrites : List Event → List Write
  | [] => []
  | Event.relaySet bank pin value _ :: t => (bank, pin, value) :: relayWrites t
  | _ :: t => relayWrites t

/-- What the sequencing claims look at: sensor reads and relay writes. -/
inductive Obs where
  | read
  | write (bank : Bank) (pin : Nat) (value : Bool)
  deriving DecidableEq

/-- The sensor reads and relay writes of a trace, in order. -/
def observe : List Event → List Obs
  | [] => []
  | Event.measurements _ :: t => Obs.read :: observe t
  | Event.relaySet bank pin value _ :: t => Obs.write bank pin value :: observe t
  | _ :: t => observe t

/-- The texts written to the display, in order. -/
def messages : List Event → List Msg
  | [] => []
  | Event.displayMessage s _ :: t => s :: messages t
  | _ :: t => messages t

/-- A display operation (clear, cursor move or message write). -/
def isDisplayOp : Event → Bool
  | Event.displayClear _ => true
  | Event.displaySetCursor _ _ _ => true
  | Event.displayMessage _ _ => true
  | _ => false

/-- A failed operation whose error `main.go` checks: a button read, a sensor
read or a display message write that reported an error. -/
def fatal : Event → Bool
  | Event.buttonRead ok => !ok
  | Event.measurements ok => !ok
  | Event.displayMessage _ ok => !ok
  | _ => false

/-- The value a computation returned, if it returned. -/
def Res.value? {α : Type} : Res α → Option α
  | Res.ok a _ => some a
  | _ => none

/-- The computation ended in a panic. -/
def Res.isPanic {α : Type} : Res α → Bool
  | Res.panic _ _ => true
  | _ => false

/-- The computation never ends. -/
def Res.isHang {α : Type} : Res α → Bool
  | Res.hang _ => true
  | _ => false

/-- The pressure of the `i`-th answer of the sensor (NaN stands in for a
failed read, which has no pressure). -/
def World.pressureAt (w : World) (i : Nat) : F64 :=
  match w.sensor i with
  | Except.ok v => v.pressure
  | Except.error _ => F64.nan

/-- The baseline `atmo` that `marsify` computes when it is started in `w` and
its first eleven sensor reads succeed: the first answer is left out, the next
ten are added up from `0.0` in the order read, and the sum is divided by
`10.0`. -/
def World.atmo (w : World) : F64 :=
  F64.div
    (((List.range 10).map (fun i => w.pressureAt (w.nSensor + 1 + i))).foldl F64.add
      (F64.ofRat 0 1))
    (F64.ofRat 10 1)

/-- The world after `b`, `s`, `d`, `r`, `c` further answers of the button, the
sensor, the display, the relays and `select` were consumed and the operations
`ev` were issued. -/
def World.adv (w : World) (b s d r c : Nat) (ev : List Event) : World :=
  { w with
    nButton := w.nButton + b
    nSensor := w.nSensor + s
    nDisplay := w.nDisplay + d
    nRelay := w.nRelay + r
    nCases := w.nCases + c
    trace := w.trace ++ ev }

/-! ## Sample hardware -/

/-- The `Marsarium` that `main` builds: the bus addresses and the button pin. -/
def m0 : Marsarium := ⟨0x77, 0x27, 0x26, BUTTON_PIN, 0x25⟩

/-- A measurement of 20 degrees, 50 %RH and the given pressure. -/
def sample (pressure : F64) : Reading := ⟨F64.ofRat 20 1, F64.ofRat 50 1, pressure⟩

/-- Hardware on which every call succeeds: the button is released (high), the
pressure is a steady 1000, and the deadline of `countdown` is taken at once. -/
def calm : World :=
  { button := fun _ => Except.ok 1
    sensor := fun _ => Except.ok (sample (F64.ofRat 1000 1))
    displayErr := fun _ => none
    relayErr := fun _ => none
    cases := fun _ => Case.timeChan
    nButton := 0
    nSensor := 0
    nDisplay := 0
    nRelay := 0
    nCases := 0
    trace := [] }

/-- The button is pressed (low). -/
def pressed : World := { calm with button := fun _ => Except.ok 0 }

/-- The sensor fails on its first three reads. -/
def sensorDown : World :=
  { calm with sensor := fun i => if i < 3 then Except.error "i2c: read failed"
                                 else Except.ok (sample (F64.ofRat 1000 1)) }

/-- Four ticks are taken by `select` before the deadline. -/
def fourTicks : World :=
  { calm with cases := fun i => if i < 4 then Case.tickChan else Case.timeChan }

/-- The fifth tick and the deadline are ready together and `select` takes the
tick first. -/
def fiveTicks : World :=
  { calm with cases := fun i => if i < 5 then Case.tickChan else Case.timeChan }

/-- The display reports an error on its first call (the `Clear()`). -/
def clearFails : World :=
  { calm with displayErr := fun i => if i = 0 then some "i2c: write failed" else none }

/-! ## Invariants of computations -/

/-- Whatever the hardware answers, `x` only appends operations to the trace, and
each operation it appends satisfies `P`. -/
def Emits {α : Type} (P : Event → Prop) (x : M α) : Prop :=
  ∀ w, ∃ ev, (x w).world.trace = w.trace ++ ev ∧ ∀ e ∈ ev, P e

/-- Whenever `x` returns, the relay writes it has issued are exactly `l`. -/
def Writes {α : Type} (l : List Write) (x : M α) : Prop :=
  ∀ w a w1, x w = Res.ok a w1 → relayWrites w1.trace = relayWrites w.trace ++ l

/-- The relay use allowed to the sequencer: no relay read, and a write either to
the gas bank or to the vacuum relay of the auxiliary bank. -/
def SequencerUse (e : Event) : Prop :=
  (∀ bank pin value, e ≠ Event.relayGet bank pin value)
    ∧ ∀ bank pin value ok, e = Event.relaySet bank pin value ok →
        bank = Bank.gas ∨ (bank = Bank.aux ∧ pin = VACUUM_RELAY)

/-- Steady pressure 1000 while calibrating; then 970, 970, 960 (the vacuum
pulls the chamber down to 96 %), 975, 975, 980 (nitrogen fills it to 98 %),
999, 999 and 1000 from then on (argon fills it to the baseline). -/
def fill : World :=
  { calm with
    sensor := fun i => Except.ok (sample (F64.ofRat
      (if i < 11 then 1000 else if i < 13 then 970 else if i < 14 then 960
        else if i < 16 then 975 else if i < 17 then 980 else if i < 19 then 999 else 1000) 1)) }

/-- As `fill` with a vacuum wait of one read, but the sensor's thirteenth and
fourteenth pressures, the first one of the N2 wait and the first one of the Ar
wait, are NaN. -/
def glitchFill : World :=
  { calm with
    sensor := fun i => Except.ok (sample
      (if i < 11 then F64.ofRat 1000 1 else if i < 12 then F64.ofRat 960 1
        else if i < 14 then F64.nan else F64.ofRat 1000 1)) }

/-- Steady pressure 1000 for ever, but for one NaN: the sensor's thirteenth
pressure, the second one of the vacuum wait. -/
def glitchDrain : World :=
  { calm with
    sensor := fun i => Except.ok (sample (if i = 12 then F64.nan else F64.ofRat 1000 1)) }

/-- Steady pressure 1000 for ever: the vacuum never pulls the chamber down. -/
def stuck : World := calm

/-- Steady pressure `100000.1` (the binary64 nearest to it). -/
def hazy : World :=
  { calm with sensor := fun _ => Except.ok (sample (F64.ofRat 1000001 10)) }

/-- Steady pressure `101325.0`. -/
def standard : World :=
  { calm with sensor := fun _ => Except.ok (sample (F64.ofRat 101325 1)) }

/-- The error policy of a computation: it only appends operations to the trace,
and either it does not panic and none of its operations is a failed checked
one, or it panics and the failed checked operation is the last operation it
issued, the only one of that kind. -/
def Safe {α : Type} (x : M α) : Prop :=
  ∀ w, ∃ ev, (x w).world.trace = w.trace ++ ev
    ∧ (((x w).isPanic = false ∧ ∀ e ∈ ev, fatal e = false)
      ∨ ((x w).isPanic = true ∧ (x w).value? = none
          ∧ ∃ pre e, ev = pre ++ [e] ∧ fatal e = true ∧ ∀ e1 ∈ pre, fatal e1 = false))

/-- The button read fails. -/
def buttonDown : World := { calm with button := fun _ => Except.error "gpio: read failed" }

/-- The relay writes of a trace together with the start of the blinker and the
sending of its stop signal, in order. -/
def signals : List Event → List Event
  | [] => []
  | Event.relaySet bank pin value _ :: t => Event.relaySet bank pin value true :: signals t
  | Event.goBlinker :: t => Event.goBlinker :: signals t
  | Event.stopSend :: t => Event.stopSend :: signals t
  | _ :: t => signals t

/-- Whenever `x` returns, the signals it has issued are exactly `l`. -/
def Signals {α : Type} (l : List Event) (x : M α) : Prop :=
  ∀ w a w1, x w = Res.ok a w1 → signals w1.trace = signals w.trace ++ l

/-- A write of the control thread to the auxiliary bank, seen from the blinker
(the two threads share the bank). -/
def Blinker.auxWrite (b : Blinker) (pin : Nat) (value : Bool) : Blinker :=
  { b with aux := Function.update b.aux pin value }

/-! ## How computations run -/

theorem bind_ok {α β : Type} {x : M α} {f : α → M β} {w w1 : World} {a : α}
    (h : x w = Res.ok a w1) : (x >>= f) w = f a w1 := by
  show M.bind x f w = f a w1
  simp [M.bind, h]

theorem bind_panic {α β : Type} {x : M α} {f : α → M β} {w w1 : World} {msg : String}
    (h : x w = Res.panic msg w1) : (x >>= f) w = Res.panic msg w1 := by
  show M.bind x f w = Res.panic msg w1
  simp [M.bind, h]

theorem bind_hang {α β : Type} {x : M α} {f : α → M β} {w w1 : World}
    (h : x w = Res.hang w1) : (x >>= f) w = Res.hang w1 := by
  show M.bind x f w = Res.hang w1
  simp [M.bind, h]

theorem pure_run {α : Type} (a : α) (w : World) : (pure a : M α) w = Res.ok a w := rfl

@[simp] theorem adv_button (w : World) (b s d r c : Nat) (ev : List Event) :
    (w.adv b s d r c ev).button = w.button := rfl

@[simp] theorem adv_sensor (w : World) (b s d r c : Nat) (ev : List Event) :
    (w.adv b s d r c ev).sensor = w.sensor := rfl

@[simp] theorem adv_displayErr (w : World) (b s d r c : Nat) (ev : List Event) :
    (w.adv b s d r c ev).displayErr = w.displayErr := rfl

@[simp] theorem adv_relayErr (w : World) (b s d r c : Nat) (ev : List Event) :
    (w.adv b s d r c ev).relayErr = w.relayErr := rfl

@[simp] theorem adv_cases (w : World) (b s d r c : Nat) (ev : List Event) :
    (w.adv b s d r c ev).cases = w.cases := rfl

@[simp] theorem adv_nButton (w : World) (b s d r c : Nat) (ev : List Event) :
    (w.adv b s d r c ev).nButton = w.nButton + b := rfl

@[simp] theorem adv_nSensor (w : World) (b s d r c : Nat) (ev : List Event) :
    (w.adv b s d r c ev).nSensor = w.nSensor + s := rfl

@[simp] theorem adv_nDisplay (w : World) (b s d r c : Nat) (ev : List Event) :
    (w.adv b s d r c ev).nDisplay = w.nDisplay + d := rfl

@[simp] theorem adv_nRelay (w : World) (b s d r c : Nat) (ev : List Event) :
    (w.adv b s d r c ev).nRelay = w.nRelay + r := rfl

@[simp] theorem adv_nCases (w : World) (b s d r c : Nat) (ev : List Event) :
    (w.adv b s d r c ev).nCases = w.nCases + c := rfl

@[simp] theorem adv_trace (w : World) (b s d r c : Nat) (ev : List Event) :
    (w.adv b s d r c ev).trace = w.trace ++ ev := rfl

@[simp] theorem adv_pressureAt (w : World) (b s d r c : Nat) (ev : List Event) (i : Nat) :
    (w.adv b s d r c ev).pressureAt i = w.pressureAt i := rfl

theorem adv_adv (w : World) (b s d r c b1 s1 d1 r1 c1 : Nat) (ev ev1 : List Event) :
    (w.adv b s d r c ev).adv b1 s1 d1 r1 c1 ev1
      = w.adv (b + b1) (s + s1) (d + d1) (r + r1) (c + c1) (ev ++ ev1) := by
  simp [World.adv, Nat.add_assoc]

theorem adv_ext (w : World) {b s d r c b1 s1 d1 r1 c1 : Nat} {ev ev1 : List Event}
    (hb : b = b1) (hs : s = s1) (hd : d = d1) (hr : r = r1) (hc : c = c1) (he : ev = ev1) :
    w.adv b s d r c ev = w.adv b1 s1 d1 r1 c1 ev1 := by
  subst hb hs hd hr hc he
  rfl

theorem adv_zero (w : World) : w.adv 0 0 0 0 0 [] = w := by
  cases w
  simp [World.adv]

theorem emit_run (e : Event) (w : World) : emit e w = Res.ok () (w.adv 0 0 0 0 0 [e]) := rfl

theorem buttonRead_run (w : World) :
    buttonRead w = Res.ok (w.button w.nButton)
      (w.adv 1 0 0 0 0 [Event.buttonRead (succeeded (w.button w.nButton))]) := rfl

theorem measurements_run (w : World) :
    measurements w = Res.ok (w.sensor w.nSensor)
      (w.adv 0 1 0 0 0 [Event.measurements (succeeded (w.sensor w.nSensor))]) := rfl

theorem displayOp_run (e : Bool → Event) (w : World) :
    displayOp e w = Res.ok (w.displayErr w.nDisplay)
      (w.adv 0 0 1 0 0 [e (w.displayErr w.nDisplay).isNone]) := rfl

theorem displayClear_run (w : World) :
    displayClear w = Res.ok (w.displayErr w.nDisplay)
      (w.adv 0 0 1 0 0 [Event.displayClear (w.displayErr w.nDisplay).isNone]) := rfl

theorem displaySetCursor_run (col row : Nat) (w : World) :
    displaySetCursor col row w = Res.ok (w.displayErr w.nDisplay)
      (w.adv 0 0 1 0 0 [Event.displaySetCursor col row (w.displayErr w.nDisplay).isNone]) := rfl

theorem displayMessage_run (s : Msg) (w : World) :
    displayMessage s w = Res.ok (w.displayErr w.nDisplay)
      (w.adv 0 0 1 0 0 [Event.displayMessage s (w.displayErr w.nDisplay).isNone]) := rfl

theorem relaySet_run (bank : Bank) (pin : Nat) (value : Bool) (w : World) :
    relaySet bank pin value w = Res.ok (w.relayErr w.nRelay)
      (w.adv 0 0 0 1 0 [Event.relaySet bank pin value (w.relayErr w.nRelay).isNone]) := rfl

theorem select_run (w : World) :
    select w = Res.ok (w.cases w.nCases) (w.adv 0 0 0 0 1 []) := by
  cases w
  simp [select, World.adv]

theorem updateDisplay_ok (s : Msg) (w : World) (h : w.displayErr w.nDisplay = none) :
    updateDisplay s w = Res.ok () (w.adv 0 0 1 0 0 [Event.displayMessage s true]) := by
  unfold updateDisplay
  rw [bind_ok (displayMessage_run s w), h]
  rfl

theorem updateDisplay_err (s : Msg) (w : World) (e : String)
    (h : w.displayErr w.nDisplay = some e) :
    updateDisplay s w
      = Res.panic (e ++ "\n") (w.adv 0 0 1 0 0 [Event.displayMessage s false]) := by
  unfold updateDisplay
  rw [bind_ok (displayMessage_run s w), h]
  rfl

theorem readPressure_ok (w : World) (v : Reading) (h : w.sensor w.nSensor = Except.ok v) :
    readPressure w = Res.ok v.pressure (w.adv 0 1 0 0 0 [Event.measurements true]) := by
  unfold readPressure
  rw [bind_ok (measurements_run w), h]
  rfl

theorem readPressure_err (w : World) (e : String) (h : w.sensor w.nSensor = Except.error e) :
    readPressure w
      = Res.panic (e ++ "\n") (w.adv 0 1 0 0 0 [Event.measurements false]) := by
  unfold readPressure
  rw [bind_ok (measurements_run w), h]
  rfl

theorem pressureAt_of_ok (w : World) (i : Nat) (v : Reading) (h : w.sensor i = Except.ok v) :
    w.pressureAt i = v.pressure := by
  simp [World.pressureAt, h]

theorem succeeded_iff {α : Type} (r : Except String α) :
    succeeded r = true ↔ ∃ v, r = Except.ok v := by
  cases r <;> simp [succeeded]

theorem readPressure_of_succeeded (w : World) (h : succeeded (w.sensor w.nSensor) = true) :
    readPressure w
      = Res.ok (w.pressureAt w.nSensor) (w.adv 0 1 0 0 0 [Event.measurements true]) := by
  obtain ⟨v, hv⟩ := (succeeded_iff _).1 h
  rw [readPressure_ok w v hv, pressureAt_of_ok w _ v hv]

/-! ## Idle -/

/-- C4: when the button read succeeds with value `o`, `idle` returns `countdown`
if `o = 0` and `idle` otherwise, with the context `m` returned as it was, after
exactly one button read (one answer consumed, one operation in the trace) and
nothing else. -/
theorem idle_single_read_decides (m : Marsarium) (w : World) (o : Int)
    (h : w.button w.nButton = Except.ok o) :
    idle m w = Res.ok (if o = 0 then StateFn.countdown else StateFn.idle, m)
      (w.adv 1 0 0 0 0 [Event.buttonRead true]) := by
  unfold idle
  rw [bind_ok (buttonRead_run w), h]
  by_cases ho : o = 0 <;> simp [ho, succeeded, pure_run]

/-- C4, at a pressed button and at a released one. -/
theorem idle_single_read_decides_witness :
    pressed.button pressed.nButton = Except.ok 0
      ∧ idle m0 pressed = Res.ok (if (0 : Int) = 0 then StateFn.countdown else StateFn.idle, m0)
          (pressed.adv 1 0 0 0 0 [Event.buttonRead true]) :=
  ⟨rfl, idle_single_read_decides m0 pressed 0 rfl⟩

/-! ## Monitor -/

theorem monitor_sensor_failure (m : Marsarium) (w : World)
    (h : succeeded (w.sensor w.nSensor) = false) :
    monitor m w = Res.ok (StateFn.monitor, m)
      (w.adv 0 1 0 1 0 [Event.relaySet Bank.aux BUTTON_RELAY true (w.relayErr w.nRelay).isNone,
        Event.measurements false, Event.sleep 1]) := by
  unfold monitor
  rw [bind_ok (relaySet_run _ _ _ w), bind_ok (measurements_run _)]
  simp only [adv_sensor, adv_nSensor, Nat.add_zero]
  cases hs : w.sensor w.nSensor with
  | ok v => simp [hs, succeeded] at h
  | error e =>
    simp only [succeeded]
    rw [bind_ok (pure_run _ _), bind_ok (emit_run _ _), pure_run]
    simp [adv_adv]

/-- C5: over `n` consecutive ticks of `monitor` on which the sensor read fails,
every call returns the `monitor` state (the loop of `main` is still running in
`monitor` after them, nothing panics), no answer of the display is consumed and
no display operation appears in the trace: only the indicator-relay write, the
failed sensor read and the one-second sleep of each tick. -/
theorem monitor_survives_sensor_failures (fuel n : Nat) (m : Marsarium) (w : World)
    (h : ∀ i, i < n → succeeded (w.sensor (w.nSensor + i)) = false) :
    ∃ ev, mainLoop fuel n StateFn.monitor m w
        = Res.ok (StateFn.monitor, m) (w.adv 0 n 0 n 0 ev)
      ∧ (∀ e ∈ ev, isDisplayOp e = false) ∧ messages ev = [] ∧ ev.length = 3 * n := by
  induction n generalizing w with
  | zero => exact ⟨[], by simp [mainLoop, pure_run, adv_zero], by simp, rfl, rfl⟩
  | succ n ih =>
    have h0 : succeeded (w.sensor w.nSensor) = false := by simpa using h 0 (Nat.succ_pos n)
    obtain ⟨ev, hrun, hdisp, hmsg, hlen⟩ := ih
      (w.adv 0 1 0 1 0 [Event.relaySet Bank.aux BUTTON_RELAY true (w.relayErr w.nRelay).isNone,
        Event.measurements false, Event.sleep 1])
      (fun i hi => by
        simpa [Nat.add_assoc, Nat.add_comm 1 i] using h (i + 1) (Nat.succ_lt_succ hi))
    refine ⟨[Event.relaySet Bank.aux BUTTON_RELAY true (w.relayErr w.nRelay).isNone,
        Event.measurements false, Event.sleep 1] ++ ev, ?_, ?_, ?_, ?_⟩
    · show (step fuel StateFn.monitor m >>= fun r => mainLoop fuel n r.1 r.2) w = _
      rw [bind_ok (show step fuel StateFn.monitor m w = _ from monitor_sensor_failure m w h0)]
      simp only [hrun, adv_adv, Nat.add_comm 1 n, Nat.zero_add]
    · intro e he
      rcases List.mem_append.1 he with he | he
      · simp at he
        rcases he with rfl | rfl | rfl <;> rfl
      · exact hdisp e he
    · simpa [messages] using hmsg
    · simp [hlen]; omega

/-- C5, on hardware whose sensor fails three times in a row. -/
theorem monitor_survives_sensor_failures_witness :
    (∀ i, i < 3 → succeeded (sensorDown.sensor (sensorDown.nSensor + i)) = false)
      ∧ ∃ ev, mainLoop 0 3 StateFn.monitor m0 sensorDown
          = Res.ok (StateFn.monitor, m0) (sensorDown.adv 0 3 0 3 0 ev)
        ∧ (∀ e ∈ ev, isDisplayOp e = false) ∧ messages ev = [] ∧ ev.length = 3 * 3 :=
  ⟨by decide, monitor_survives_sensor_failures 0 3 m0 sensorDown (by decide)⟩

/-! ## Countdown -/

theorem countdown_loop_run (k : Nat) : ∀ (fuel : Nat) (c : Int) (w : World), k < fuel →
    (∀ i, w.displayErr i = none) →
    (∀ i, i < k → w.cases (w.nCases + i) = Case.tickChan) →
    w.cases (w.nCases + k) = Case.timeChan →
    ∃ ev, countdown.loop fuel c w = Res.ok () (w.adv 0 0 (2 * k) 0 (k + 1) ev)
      ∧ messages ev = (List.range k).map (fun (i : Nat) => Msg.text (toString (c - (i : Int)))) := by
  induction k with
  | zero =>
    intro fuel c w hfuel _ _ hdead
    obtain ⟨f, rfl⟩ : ∃ f, fuel = f + 1 := ⟨fuel - 1, by omega⟩
    refine ⟨[Event.tickerStop], ?_, rfl⟩
    unfold countdown.loop
    rw [bind_ok (select_run w)]
    simp only [Nat.add_zero] at hdead
    simp only [hdead]
    rw [emit_run, adv_adv]
    rfl
  | succ k ih =>
    intro fuel c w hfuel hdisp hticks hdead
    obtain ⟨f, rfl⟩ : ∃ f, fuel = f + 1 := ⟨fuel - 1, by omega⟩
    have h0 : w.cases w.nCases = Case.tickChan := by simpa using hticks 0 (Nat.succ_pos k)
    obtain ⟨ev, hrun, hmsg⟩ := ih f (c - 1)
      (w.adv 0 0 2 0 1 [Event.displaySetCursor 17 3 true, Event.displayMessage (Msg.text (toString c)) true])
      (by omega) (fun i => by simpa using hdisp i)
      (fun i hi => by
        simpa [Nat.add_assoc, Nat.add_comm 1 i] using hticks (i + 1) (Nat.succ_lt_succ hi))
      (by simpa [Nat.add_assoc, Nat.add_comm 1 k] using hdead)
    refine ⟨[Event.displaySetCursor 17 3 true, Event.displayMessage (Msg.text (toString c)) true]
      ++ ev, ?_, ?_⟩
    · unfold countdown.loop
      rw [bind_ok (select_run w)]
      simp only [h0]
      rw [bind_ok (displaySetCursor_run _ _ _),
        bind_ok (updateDisplay_ok _ _ (by simpa using hdisp _))]
      simp only [adv_adv, adv_displayErr, hdisp, Option.isNone_none]
      show countdown.loop f (c - 1) (w.adv 0 0 2 0 1 [Event.displaySetCursor 17 3 true,
        Event.displayMessage (Msg.text (toString c)) true]) = _
      rw [hrun, adv_adv]
      exact congrArg _ (adv_ext w (by omega) (by omega) (by omega) (by omega) (by omega) rfl)
    · have hshift : ∀ i : Nat, c - 1 - (i : Int) = c - ((i + 1 : Nat) : Int) := by
        intro i
        push_cast
        omega
      simp [messages, hmsg, List.range_succ_eq_map, Function.comp, hshift]

/-- C6, as the code has it: when `select` takes `k` ticks and then the deadline
(and the display reports no error), `countdown` returns the `marsify` state and
has written, after the greeting and `Marsification in 5`, one countdown value
per tick taken: `4, 3, ...`, down to `5 - k`. With four ticks the values shown
are 5, 4, 3, 2, 1. -/
theorem countdown_shows_one_value_per_tick (k fuel : Nat) (m : Marsarium) (w : World)
    (hfuel : k < fuel) (hdisp : ∀ i, w.displayErr i = none)
    (hticks : ∀ i, i < k → w.cases (w.nCases + i) = Case.tickChan)
    (hdead : w.cases (w.nCases + k) = Case.timeChan) :
    ∃ ev, countdown fuel m w
        = Res.ok (StateFn.marsify, m) (w.adv 0 0 (5 + 2 * k) 0 (k + 1) ev)
      ∧ messages ev = Msg.text "Godspeed little fern" :: Msg.text "Marsification in 5"
          :: (List.range k).map (fun (i : Nat) => Msg.text (toString ((4 : Int) - (i : Int)))) := by
  obtain ⟨ev, hrun, hmsg⟩ := countdown_loop_run k fuel 4
    (w.adv 0 0 5 0 0 [Event.newTicker 1, Event.newTimer 5, Event.displayClear true,
      Event.displaySetCursor 0 0 true, Event.displayMessage (Msg.text "Godspeed little fern") true,
      Event.displaySetCursor 0 3 true, Event.displayMessage (Msg.text "Marsification in 5") true])
    hfuel (fun i => by simpa using hdisp i) (by simpa using hticks) (by simpa using hdead)
  refine ⟨[Event.newTicker 1, Event.newTimer 5, Event.displayClear true,
      Event.displaySetCursor 0 0 true, Event.displayMessage (Msg.text "Godspeed little fern") true,
      Event.displaySetCursor 0 3 true, Event.displayMessage (Msg.text "Marsification in 5") true]
      ++ ev, ?_, ?_⟩
  · unfold countdown
    rw [bind_ok (emit_run _ _), bind_ok (emit_run _ _), bind_ok (displayClear_run _),
      bind_ok (displaySetCursor_run _ _ _),
      bind_ok (updateDisplay_ok _ _ (by simpa using hdisp _)),
      bind_ok (displaySetCursor_run _ _ _),
      bind_ok (updateDisplay_ok _ _ (by simpa using hdisp _))]
    simp only [adv_adv, adv_displayErr, hdisp, Option.isNone_none]
    refine (bind_ok hrun).trans ?_
    rw [pure_run, adv_adv]
    exact congrArg _ (adv_ext w (by omega) (by omega) (by omega) (by omega) (by omega) rfl)
  · simp [messages, hmsg]

/-- C6 as the code has it, with four ticks before the deadline. -/
theorem countdown_shows_one_value_per_tick_witness :
    (4 < 10 ∧ (∀ i, fourTicks.displayErr i = none)
      ∧ (∀ i, i < 4 → fourTicks.cases (fourTicks.nCases + i) = Case.tickChan)
      ∧ fourTicks.cases (fourTicks.nCases + 4) = Case.timeChan)
    ∧ ∃ ev, countdown 10 m0 fourTicks
        = Res.ok (StateFn.marsify, m0) (fourTicks.adv 0 0 (5 + 2 * 4) 0 (4 + 1) ev)
      ∧ messages ev = Msg.text "Godspeed little fern" :: Msg.text "Marsification in 5"
          :: (List.range 4).map (fun (i : Nat) => Msg.text (toString ((4 : Int) - (i : Int)))) :=
  ⟨⟨by decide, fun _ => rfl, by decide, by decide⟩,
    countdown_shows_one_value_per_tick 4 10 m0 fourTicks (by decide) (fun _ => rfl)
      (by decide) (by decide)⟩

/-- C6 fails as stated: when the fifth tick is taken before the deadline,
`countdown` writes six countdown values, the last of them `0`, before it
returns the `marsify` state. -/
theorem countdown_fifth_tick_shows_zero :
    (countdown 10 m0 fiveTicks).value? = some (StateFn.marsify, m0)
      ∧ messages (countdown 10 m0 fiveTicks).world.trace
        = [Msg.text "Godspeed little fern", Msg.text "Marsification in 5", Msg.text "4",
            Msg.text "3", Msg.text "2", Msg.text "1", Msg.text "0"] := by
  decide!

/-! ## Facts about binary64 -/

namespace F64

theorem lt_eq_not_ge (x y : F64) (hx : x.isNum = true) (hy : y.isNum = true) :
    lt x y = !(ge x y) := by
  rcases x with _ | a | ⟨a, u⟩ <;> rcases y with _ | b | ⟨b, v⟩ <;>
    first
    | (simp [isNum] at hx; done)
    | (simp [isNum] at hy; done)
    | (cases a <;> cases b <;> simp [lt, ge, le]) <;>
      first
      | exact Bool.or_comm _ _
      | (rw [Bool.eq_iff_iff]; simp)

theorem isNum_ofMag (neg : Bool) (n d : Nat) : (ofMag neg n d).isNum = true := by
  unfold ofMag
  split <;> rfl

theorem isNum_of_isFinite (x : F64) (h : x.isFinite = true) : x.isNum = true := by
  cases x <;> simp_all [isFinite, isNum]

theorem isNum_add (x y : F64) (hx : x.isNum = true) (hy : y.isFinite = true) :
    (add x y).isNum = true := by
  cases y with
  | nan => simp [isFinite] at hy
  | inf b => simp [isFinite] at hy
  | fin b v =>
    cases x with
    | nan => simp [isNum] at hx
    | inf a => rfl
    | fin a u =>
      simp only [add]
      split
      · exact isNum_ofMag _ _ _
      · split
        · rfl
        · split <;> exact isNum_ofMag _ _ _

theorem isNum_foldl_add (l : List F64) : ∀ acc : F64, acc.isNum = true →
    (∀ y ∈ l, y.isFinite = true) → (l.foldl add acc).isNum = true := by
  induction l with
  | nil => intro acc h _; exact h
  | cons y t ih =>
    intro acc h hl
    exact ih _ (isNum_add acc y h (hl y (List.mem_cons_self _ _)))
      (fun z hz => hl z (List.mem_cons_of_mem _ hz))

theorem isNum_div_fin (x : F64) (b : Bool) (v : Nat) (hx : x.isNum = true) (hv : v ≠ 0) :
    (div x (fin b v)).isNum = true := by
  cases x with
  | nan => simp [isNum] at hx
  | inf a => rfl
  | fin a u =>
    simp only [div, hv, if_false]
    exact isNum_ofMag _ _ _

theorem isNum_mul_fin (x : F64) (b : Bool) (v : Nat) (hx : x.isNum = true) (hv : v ≠ 0) :
    (mul x (fin b v)).isNum = true := by
  cases x with
  | nan => simp [isNum] at hx
  | inf a => simp [mul, hv, isNum]
  | fin a u => exact isNum_ofMag _ _ _

theorem ofRat_zero : ofRat 0 1 = fin false 0 := by decide!

theorem ofRat_ten : ofRat 10 1 = fin false (10 * 2 ^ 1074) := by decide!

end F64

theorem CO2_MIX_toF64 : CO2_MIX.toF64 = F64.fin false (8646911284551352 * 2 ^ 1021) := by
  decide!

theorem CO2_N2_MIX_toF64 :
    (CO2_MIX.add N2_MIX).toF64 = F64.fin false (8827055269646172 * 2 ^ 1021) := by
  decide!

theorem isNum_atmo (w : World)
    (h : ∀ i, i < 10 → (w.pressureAt (w.nSensor + 1 + i)).isFinite = true) :
    w.atmo.isNum = true := by
  unfold World.atmo
  rw [F64.ofRat_ten]
  refine F64.isNum_div_fin _ _ _ (F64.isNum_foldl_add _ _ ?_ ?_)
    (Nat.pos_iff_ne_zero.1 (by positivity))
  · rw [F64.ofRat_zero]; rfl
  · intro y hy
    obtain ⟨i, hi, rfl⟩ := List.mem_map.1 hy
    exact h i (List.mem_range.1 hi)

theorem isNum_atmo_CO2 (w : World) (h : w.atmo.isNum = true) :
    (F64.mul w.atmo CO2_MIX.toF64).isNum = true := by
  rw [CO2_MIX_toF64]
  exact F64.isNum_mul_fin _ _ _ h (Nat.pos_iff_ne_zero.1 (by positivity))

theorem isNum_atmo_N2 (w : World) (h : w.atmo.isNum = true) :
    (F64.mul w.atmo (CO2_MIX.add N2_MIX).toF64).isNum = true := by
  rw [CO2_N2_MIX_toF64]
  exact F64.isNum_mul_fin _ _ _ h (Nat.pos_iff_ne_zero.1 (by positivity))

/-! ## The loops of `marsify` -/

theorem sum_run (n : Nat) : ∀ (acc : F64) (w : World),
    (∀ i, i < n → succeeded (w.sensor (w.nSensor + i)) = true) →
    marsify.sum n acc w
      = Res.ok (((List.range n).map (fun i => w.pressureAt (w.nSensor + i))).foldl F64.add acc)
          (w.adv 0 n 0 0 0 (List.replicate n (Event.measurements true))) := by
  induction n with
  | zero =>
    intro acc w _
    simp [marsify.sum, pure_run, adv_zero]
  | succ n ih =>
    intro acc w h
    have h0 : succeeded (w.sensor w.nSensor) = true := by simpa using h 0 (Nat.succ_pos n)
    unfold marsify.sum
    rw [bind_ok (readPressure_of_succeeded w h0), ih _ _ (fun i hi => by
      simpa [Nat.add_assoc, Nat.add_comm 1 i] using h (i + 1) (Nat.succ_lt_succ hi)), adv_adv]
    congr 1
    · simp [List.range_succ_eq_map, Function.comp, Nat.add_assoc, Nat.add_comm 1]
      rfl
    · exact adv_ext w rfl (by omega) rfl rfl rfl (by simp [List.replicate_succ])

theorem calibrate_run (w : World)
    (h : ∀ i, i < 11 → succeeded (w.sensor (w.nSensor + i)) = true) :
    marsify.calibrate w
      = Res.ok w.atmo (w.adv 0 11 0 0 0 (List.replicate 11 (Event.measurements true))) := by
  have h0 : succeeded (w.sensor w.nSensor) = true := by simpa using h 0 (by omega)
  unfold marsify.calibrate
  rw [bind_ok (readPressure_of_succeeded w h0), bind_ok (sum_run 10 _ _ (fun i hi => by
    simpa [Nat.add_assoc, Nat.add_comm 1 i] using h (i + 1) (by omega))), pure_run, adv_adv]
  congr 1

theorem wait_exit (cond : F64 → Bool) (k : Nat) : ∀ (fuel : Nat) (w : World), k < fuel →
    (∀ i, i < k + 1 → succeeded (w.sensor (w.nSensor + i)) = true) →
    (∀ i, i < k → cond (w.pressureAt (w.nSensor + i)) = true) →
    cond (w.pressureAt (w.nSensor + k)) = false →
    marsify.wait cond fuel w
      = Res.ok () (w.adv 0 (k + 1) 0 0 0 (List.replicate (k + 1) (Event.measurements true))) := by
  induction k with
  | zero =>
    intro fuel w hfuel hok _ hexit
    obtain ⟨f, rfl⟩ : ∃ f, fuel = f + 1 := ⟨fuel - 1, by omega⟩
    have h0 : succeeded (w.sensor w.nSensor) = true := by simpa using hok 0 (by omega)
    unfold marsify.wait
    rw [bind_ok (readPressure_of_succeeded w h0)]
    simp only [Nat.add_zero] at hexit
    simp [hexit, pure_run]
  | succ k ih =>
    intro fuel w hfuel hok hwait hexit
    obtain ⟨f, rfl⟩ : ∃ f, fuel = f + 1 := ⟨fuel - 1, by omega⟩
    have h0 : succeeded (w.sensor w.nSensor) = true := by simpa using hok 0 (by omega)
    have hw0 : cond (w.pressureAt w.nSensor) = true := by simpa using hwait 0 (by omega)
    unfold marsify.wait
    rw [bind_ok (readPressure_of_succeeded w h0)]
    simp only [hw0, if_true]
    rw [ih f _ (by omega)
      (fun i hi => by
        simpa [Nat.add_assoc, Nat.add_comm 1 i] using hok (i + 1) (by omega))
      (fun i hi => by
        simpa [Nat.add_assoc, Nat.add_comm 1 i] using hwait (i + 1) (by omega))
      (by simpa [Nat.add_assoc, Nat.add_comm 1 k] using hexit), adv_adv]
    exact congrArg _ (adv_ext w rfl (by omega) rfl rfl rfl (by simp [List.replicate_succ]))

theorem wait_hang (cond : F64 → Bool) (fuel : Nat) : ∀ (w : World),
    (∀ i, i < fuel → succeeded (w.sensor (w.nSensor + i)) = true) →
    (∀ i, i < fuel → cond (w.pressureAt (w.nSensor + i)) = true) →
    marsify.wait cond fuel w
      = Res.hang (w.adv 0 fuel 0 0 0 (List.replicate fuel (Event.measurements true))) := by
  induction fuel with
  | zero =>
    intro w _ _
    simp [marsify.wait, hang, adv_zero]
  | succ f ih =>
    intro w hok hwait
    have h0 : succeeded (w.sensor w.nSensor) = true := by simpa using hok 0 (by omega)
    have hw0 : cond (w.pressureAt w.nSensor) = true := by simpa using hwait 0 (by omega)
    unfold marsify.wait
    rw [bind_ok (readPressure_of_succeeded w h0)]
    simp only [hw0, if_true]
    rw [ih _
      (fun i hi => by
        simpa [Nat.add_assoc, Nat.add_comm 1 i] using hok (i + 1) (by omega))
      (fun i hi => by
        simpa [Nat.add_assoc, Nat.add_comm 1 i] using hwait (i + 1) (by omega)), adv_adv]
    exact congrArg _ (adv_ext w rfl (by omega) rfl rfl rfl (by simp [List.replicate_succ]))

/-! ## Exact binary64 arithmetic -/

namespace F64

theorem log2Aux_spec (fuel : Nat) : ∀ n, n ≤ fuel → n ≠ 0 →
    2 ^ log2Aux fuel n ≤ n ∧ n < 2 ^ (log2Aux fuel n + 1) := by
  induction fuel with
  | zero => intro n h h0; omega
  | succ f ih =>
    intro n h h0
    unfold log2Aux
    by_cases h2 : n < 2
    · simp only [h2, if_true]
      constructor <;> simp <;> omega
    · simp only [h2, if_false]
      obtain ⟨hlo, hhi⟩ := ih (n / 2) (by omega) (by omega)
      rw [Nat.pow_succ, Nat.pow_succ]
      rw [Nat.pow_succ] at hhi
      constructor <;> omega

theorem log2Step_spec (n k k2 : Nat) (p : Nat × Nat) (hk : k2 = k + k)
    (h : 1 ≤ p.1 ∧ p.1 < 2 ^ k2 ∧ 2 ^ p.2 * p.1 ≤ n ∧ n < 2 ^ p.2 * (p.1 + 1)) :
    1 ≤ (log2Step p k).1 ∧ (log2Step p k).1 < 2 ^ k
      ∧ 2 ^ (log2Step p k).2 * (log2Step p k).1 ≤ n
      ∧ n < 2 ^ (log2Step p k).2 * ((log2Step p k).1 + 1) := by
  obtain ⟨c, a⟩ := p
  obtain ⟨h1, h2, h3, h4⟩ := h
  simp only at h1 h2 h3 h4
  have hpos : 0 < 2 ^ k := by positivity
  unfold log2Step
  by_cases hc : 2 ^ k ≤ c
  · simp only [hc, if_true]
    rw [hk, Nat.pow_add] at h2
    refine ⟨Nat.div_pos hc hpos, Nat.div_lt_of_lt_mul h2, ?_, ?_⟩
    · calc 2 ^ (a + k) * (c / 2 ^ k) = 2 ^ a * (2 ^ k * (c / 2 ^ k)) := by
            rw [Nat.pow_add, Nat.mul_assoc]
        _ ≤ 2 ^ a * c := Nat.mul_le_mul_left _ (Nat.mul_div_le c (2 ^ k))
        _ ≤ n := h3
    · calc n < 2 ^ a * (c + 1) := h4
        _ ≤ 2 ^ a * (2 ^ k * (c / 2 ^ k + 1)) :=
            Nat.mul_le_mul_left _ (Nat.lt_mul_div_succ c hpos)
        _ = 2 ^ (a + k) * (c / 2 ^ k + 1) := by rw [Nat.pow_add, Nat.mul_assoc]
  · simp only [hc, if_false]
    exact ⟨h1, Nat.lt_of_not_le hc, h3, h4⟩

theorem ilog2_spec (n : Nat) (h0 : n ≠ 0) : 2 ^ ilog2 n ≤ n ∧ n < 2 ^ (ilog2 n + 1) := by
  unfold ilog2
  by_cases hn : n < 2 ^ 4096
  · rw [if_pos hn]
    have h := log2Step_spec n 1 2 _ rfl
      (log2Step_spec n 2 4 _ rfl
      (log2Step_spec n 4 8 _ rfl
      (log2Step_spec n 8 16 _ rfl
      (log2Step_spec n 16 32 _ rfl
      (log2Step_spec n 32 64 _ rfl
      (log2Step_spec n 64 128 _ rfl
      (log2Step_spec n 128 256 _ rfl
      (log2Step_spec n 256 512 _ rfl
      (log2Step_spec n 512 1024 _ rfl
      (log2Step_spec n 1024 2048 _ rfl
      (log2Step_spec n 2048 4096 (n, 0) rfl
        ⟨Nat.pos_of_ne_zero h0, hn, by simp, by simp⟩)))))))))))
    simp only [List.foldl_cons, List.foldl_nil]
    obtain ⟨h1, h2, h3, h4⟩ := h
    generalize log2Step (log2Step (log2Step (log2Step (log2Step (log2Step (log2Step (log2Step
      (log2Step (log2Step (log2Step (log2Step (n, 0) 2048) 1024) 512) 256) 128) 64) 32) 16) 8)
      4) 2) 1 = p at h1 h2 h3 h4
    have hc : p.1 = 1 := by omega
    rw [hc] at h3 h4
    rw [Nat.pow_succ]
    omega
  · rw [if_neg hn]
    exact log2Aux_spec n n (Nat.le_refl n) h0

/-- A value with a 53-bit significand `a` sits on the grid of its binade. -/
theorem shift_le (a e : Nat) (ha0 : 0 < a) (ha : a < 2 ^ 53) : ilog2 (a * 2 ^ e) - 52 ≤ e := by
  have hpos : 0 < 2 ^ e := (by positivity)
  have hn0 : a * 2 ^ e ≠ 0 := Nat.pos_iff_ne_zero.1 (Nat.mul_pos ha0 hpos)
  have hlo := (ilog2_spec _ hn0).1
  have hlt : a * 2 ^ e < 2 ^ (53 + e) := by
    rw [Nat.pow_add]
    exact Nat.mul_lt_mul_of_pos_right ha hpos
  have hpow : 2 ^ ilog2 (a * 2 ^ e) < 2 ^ (53 + e) := Nat.lt_of_le_of_lt hlo hlt
  have := (Nat.pow_lt_pow_iff_right (by decide : 1 < 2)).1 hpow
  omega

/-- Rounding leaves a representable value as it is. -/
theorem roundUnits_exact (a e d : Nat) (ha0 : 0 < a) (ha : a < 2 ^ 53) (hd : 0 < d) :
    roundUnits (a * 2 ^ e * d) d = a * 2 ^ e := by
  have hs := shift_le a e ha0 ha
  unfold roundUnits
  simp only [Nat.mul_div_cancel _ hd]
  generalize ilog2 (a * 2 ^ e) - 52 = s at hs
  obtain ⟨t, rfl⟩ : ∃ t, e = t + s := ⟨e - s, by omega⟩
  have hD : 0 < d * 2 ^ s := Nat.mul_pos hd ((by positivity))
  have hn : a * 2 ^ (t + s) * d = a * 2 ^ t * (d * 2 ^ s) := by
    rw [Nat.pow_add]
    ring
  rw [hn, Nat.mul_div_cancel _ hD, Nat.mul_mod_left]
  have hne : ¬ (d * 2 ^ s < 2 * 0 ∨ (2 * 0 = d * 2 ^ s ∧ a * 2 ^ t % 2 = 1)) := by
    omega
  rw [if_neg hne, Nat.pow_add]
  ring

theorem ofMag_exact (neg : Bool) (a e d : Nat) (ha0 : 0 < a) (ha : a < 2 ^ 53) (hd : 0 < d)
    (hmax : a * 2 ^ e ≤ maxUnits) : ofMag neg (a * 2 ^ e * d) d = fin neg (a * 2 ^ e) := by
  unfold ofMag
  rw [roundUnits_exact a e d ha0 ha hd, if_pos hmax]

/-- Adding a value to `j` copies of itself is exact while the significand fits. -/
theorem add_multiple (neg : Bool) (a e j : Nat) (ha0 : 0 < a) (hj : (j + 1) * a < 2 ^ 53)
    (hmax : (j + 1) * a * 2 ^ e ≤ maxUnits) :
    add (fin neg (j * a * 2 ^ e)) (fin neg (a * 2 ^ e)) = fin neg ((j + 1) * a * 2 ^ e) := by
  have h := ofMag_exact neg ((j + 1) * a) e 1 (Nat.mul_pos (Nat.succ_pos j) ha0) hj
    (by decide) hmax
  simp only [add, if_true]
  rw [← h]
  congr 1
  ring

theorem add_zero_left (neg : Bool) (a e : Nat) (ha0 : 0 < a) (ha : a < 2 ^ 53)
    (hmax : a * 2 ^ e ≤ maxUnits) :
    add (fin false 0) (fin neg (a * 2 ^ e)) = fin neg (a * 2 ^ e) := by
  have h := ofMag_exact neg a e 1 ha0 ha (by decide) hmax
  have hpos : 0 < a * 2 ^ e := Nat.mul_pos ha0 ((by positivity))
  rw [Nat.mul_one] at h
  cases neg with
  | false => simp only [add, if_true, Nat.zero_add]; exact h
  | true =>
    have h1 : ¬ (0 = a * 2 ^ e) := by omega
    have h2 : ¬ (a * 2 ^ e < 0) := by omega
    simp only [add, h1, h2, if_false, Nat.sub_zero]
    exact h

theorem foldl_add_copies (neg : Bool) (a e : Nat) (ha0 : 0 < a) (k : Nat) : ∀ j,
    (j + k) * a < 2 ^ 53 → (j + k) * a * 2 ^ e ≤ maxUnits →
    (List.replicate k (fin neg (a * 2 ^ e))).foldl add (fin neg (j * a * 2 ^ e))
      = fin neg ((j + k) * a * 2 ^ e) := by
  induction k with
  | zero => intro j _ _; rfl
  | succ k ih =>
    intro j hj hmax
    have hle : (j + 1) * a ≤ (j + (k + 1)) * a := Nat.mul_le_mul_right a (by omega)
    rw [List.replicate_succ, List.foldl_cons,
      add_multiple neg a e j ha0 (Nat.lt_of_le_of_lt hle hj)
        (Nat.le_trans (Nat.mul_le_mul_right _ hle) hmax),
      ih (j + 1) (by rwa [show j + 1 + k = j + (k + 1) by omega])
        (by rwa [show j + 1 + k = j + (k + 1) by omega])]
    rw [show j + 1 + k = j + (k + 1) by omega]

theorem div_fin_fin (a : Bool) (x : Nat) (b : Bool) (y : Nat) (hy : y ≠ 0) :
    div (fin a x) (fin b y) = ofMag (a != b) (x * 2 ^ 1074) y := by
  simp only [div]
  rw [if_neg hy]

theorem ofMag_scaled (neg : Bool) (a e j c : Nat) (ha0 : 0 < a) (ha : a < 2 ^ 53) (hj : 0 < j)
    (hc : 0 < c) (hmax : a * 2 ^ e ≤ maxUnits) :
    ofMag neg (j * a * 2 ^ e * c) (j * c) = fin neg (a * 2 ^ e) := by
  rw [← ofMag_exact neg a e (j * c) ha0 ha (Nat.mul_pos hj hc) hmax]
  congr 1
  ring

/-- The mean of ten copies of a value whose significand fits in 49 bits is the
value itself: all nine sums and the division are exact. -/
theorem mean_of_copies (neg : Bool) (a e : Nat) (ha0 : 0 < a) (ha : a < 2 ^ 49)
    (hmax : 10 * (a * 2 ^ e) ≤ maxUnits) :
    div ((List.replicate 10 (fin neg (a * 2 ^ e))).foldl add (ofRat 0 1)) (ofRat 10 1)
      = fin neg (a * 2 ^ e) := by
  have h53 : 10 * a < 2 ^ 53 := by
    have : (2 : Nat) ^ 53 = 16 * 2 ^ 49 := by norm_num
    omega
  have hmax10 : 10 * a * 2 ^ e ≤ maxUnits := by rwa [Nat.mul_assoc]
  have hmax1 : a * 2 ^ e ≤ maxUnits := Nat.le_trans (Nat.le_mul_of_pos_left _ (by decide)) hmax
  rw [ofRat_zero, ofRat_ten, List.replicate_succ, List.foldl_cons,
    add_zero_left neg a e ha0 (by omega) hmax1]
  have hfold := foldl_add_copies neg a e ha0 9 1 (by simpa using h53) (by simpa using hmax10)
  rw [Nat.one_mul] at hfold
  rw [hfold]
  rw [div_fin_fin _ _ _ _ (Nat.pos_iff_ne_zero.1 (by positivity)), Bool.bne_false]
  exact ofMag_scaled neg a e 10 (2 ^ 1074) ha0 (by omega) (by decide) (by positivity) hmax1

theorem ilog2_zero : ilog2 0 = 0 := by decide!

theorem roundUnits_zero (c : Nat) (hc : 0 < c) : roundUnits (0 * c) c = 0 := by
  unfold roundUnits
  simp only [Nat.zero_mul, Nat.zero_div, ilog2_zero, Nat.zero_sub, Nat.pow_zero, Nat.mul_one,
    Nat.zero_mod, Nat.mul_zero]
  have hne : ¬ (c < 0 ∨ (0 = c ∧ 0 % 2 = 1)) := by omega
  rw [if_neg hne]

/-- The significand of a rounded value has at most 53 bits. -/
theorem roundUnits_form (n d : Nat) :
    roundUnits n d = 0 ∨ ∃ a e, 0 < a ∧ a < 2 ^ 53 ∧ roundUnits n d = a * 2 ^ e := by
  unfold roundUnits
  dsimp only
  have hq : n / (d * 2 ^ (ilog2 (n / d) - 52)) < 2 ^ 53 := by
    rw [← Nat.div_div_eq_div_mul]
    by_cases hv : n / d = 0
    · rw [hv, Nat.zero_div]
      positivity
    · obtain ⟨_, hhi⟩ := ilog2_spec (n / d) hv
      apply Nat.div_lt_of_lt_mul
      rw [← Nat.pow_add]
      exact Nat.lt_of_lt_of_le hhi (Nat.pow_le_pow_right (by decide) (by omega))
  generalize ilog2 (n / d) - 52 = s at hq ⊢
  generalize n / (d * 2 ^ s) = q at hq ⊢
  generalize n % (d * 2 ^ s) = r
  have hcase : ∀ q1, q1 ≤ 2 ^ 53 →
      q1 * 2 ^ s = 0 ∨ ∃ a e, 0 < a ∧ a < 2 ^ 53 ∧ q1 * 2 ^ s = a * 2 ^ e := by
    intro q1 h1
    by_cases h0 : q1 = 0
    · left
      rw [h0, Nat.zero_mul]
    · right
      by_cases h53 : q1 = 2 ^ 53
      · refine ⟨2 ^ 52, s + 1, by positivity, by norm_num, ?_⟩
        rw [h53, Nat.pow_succ]
        ring
      · exact ⟨q1, s, Nat.pos_of_ne_zero h0, by omega, rfl⟩
  split
  · exact hcase (q + 1) (by omega)
  · exact hcase q (by omega)

/-- Rounding a rounded value again changes nothing. -/
theorem roundUnits_idem (n d c : Nat) (hc : 0 < c) :
    roundUnits (roundUnits n d * c) c = roundUnits n d := by
  rcases roundUnits_form n d with h | ⟨a, e, ha0, ha, h⟩
  · rw [h]
    exact roundUnits_zero c hc
  · rw [h]
    exact roundUnits_exact a e c ha0 ha hc

/-- Multiplying a rounded value by `1.0` is exact. -/
theorem mul_one_ofMag (neg : Bool) (n d : Nat) :
    mul (ofMag neg n d) (fin false (2 ^ 1074)) = ofMag neg n d := by
  have hc : 0 < 2 ^ 1074 := by positivity
  unfold ofMag
  by_cases h : roundUnits n d ≤ maxUnits
  · rw [if_pos h]
    simp only [mul]
    rw [Bool.bne_false]
    unfold ofMag
    rw [roundUnits_idem n d _ hc, if_pos h]
  · rw [if_neg h]
    simp only [mul]
    rw [if_neg (Nat.pos_iff_ne_zero.1 hc), Bool.bne_false]

/-- A quotient by a finite non-zero value times `1.0` is the quotient. -/
theorem div_mul_one (x : F64) (b : Bool) (y : Nat) (hy : y ≠ 0) (hx : x.isNum = true) :
    mul (div x (fin b y)) (fin false (2 ^ 1074)) = div x (fin b y) := by
  have hc : 0 < 2 ^ 1074 := by positivity
  cases x with
  | nan => simp [isNum] at hx
  | inf a =>
    simp only [div, mul]
    rw [if_neg (Nat.pos_iff_ne_zero.1 hc), Bool.bne_false]
  | fin a u =>
    rw [div_fin_fin _ _ _ _ hy]
    exact mul_one_ofMag _ _ _

end F64
/-! ## Operations only append to the trace -/

theorem bind_ok_inv {α β : Type} {x : M α} {f : α → M β} {w w2 : World} {b : β}
    (h : (x >>= f) w = Res.ok b w2) : ∃ a w1, x w = Res.ok a w1 ∧ f a w1 = Res.ok b w2 := by
  cases hx : x w with
  | ok a w1 => exact ⟨a, w1, rfl, by rw [bind_ok hx] at h; exact h⟩
  | panic msg w1 => rw [bind_panic hx] at h; cases h
  | hang w1 => rw [bind_hang hx] at h; cases h

theorem emits_bind {α β : Type} {P : Event → Prop} {x : M α} {f : α → M β}
    (hx : Emits P x) (hf : ∀ a, Emits P (f a)) : Emits P (x >>= f) := by
  intro w
  obtain ⟨ev, htr, hP⟩ := hx w
  cases hxw : x w with
  | ok a w1 =>
    rw [hxw] at htr
    obtain ⟨ev1, htr1, hP1⟩ := hf a w1
    refine ⟨ev ++ ev1, ?_, ?_⟩
    · rw [bind_ok hxw, htr1]
      simp only [Res.world] at htr
      rw [htr, List.append_assoc]
    · intro e he
      rcases List.mem_append.1 he with he | he
      · exact hP e he
      · exact hP1 e he
  | panic msg w1 =>
    rw [hxw] at htr
    exact ⟨ev, by rw [bind_panic hxw]; exact htr, hP⟩
  | hang w1 =>
    rw [hxw] at htr
    exact ⟨ev, by rw [bind_hang hxw]; exact htr, hP⟩

theorem emits_pure {α : Type} {P : Event → Prop} (a : α) : Emits P (pure a : M α) :=
  fun w => ⟨[], by simp [pure_run, Res.world], by simp⟩

theorem emits_goPanic {α : Type} {P : Event → Prop} (msg : String) :
    Emits P (goPanic msg : M α) :=
  fun w => ⟨[], by simp [goPanic, Res.world], by simp⟩

theorem emits_hang {α : Type} {P : Event → Prop} : Emits P (hang : M α) :=
  fun w => ⟨[], by simp [hang, Res.world], by simp⟩

theorem emits_emit {P : Event → Prop} (e : Event) (h : P e) : Emits P (emit e) :=
  fun w => ⟨[e], by simp [emit_run, Res.world], by simpa using h⟩

theorem emits_select {P : Event → Prop} : Emits P select :=
  fun w => ⟨[], by simp [select_run, Res.world], by simp⟩

theorem emits_displayOp {P : Event → Prop} (e : Bool → Event) (h : ∀ ok, P (e ok)) :
    Emits P (displayOp e) :=
  fun w => ⟨[e (w.displayErr w.nDisplay).isNone], by simp [displayOp_run, Res.world],
    by simpa using h _⟩

theorem emits_relaySet {P : Event → Prop} (bank : Bank) (pin : Nat) (value : Bool)
    (h : ∀ ok, P (Event.relaySet bank pin value ok)) : Emits P (relaySet bank pin value) :=
  fun w => ⟨[Event.relaySet bank pin value (w.relayErr w.nRelay).isNone],
    by simp [relaySet_run, Res.world], by simpa using h _⟩

theorem emits_measurements {P : Event → Prop} (h : ∀ ok, P (Event.measurements ok)) :
    Emits P measurements :=
  fun w => ⟨[Event.measurements (succeeded (w.sensor w.nSensor))],
    by simp [measurements_run, Res.world], by simpa using h _⟩

theorem emits_buttonRead {P : Event → Prop} (h : ∀ ok, P (Event.buttonRead ok)) :
    Emits P buttonRead :=
  fun w => ⟨[Event.buttonRead (succeeded (w.button w.nButton))],
    by simp [buttonRead_run, Res.world], by simpa using h _⟩

theorem emits_updateDisplay {P : Event → Prop} (s : Msg)
    (h : ∀ ok, P (Event.displayMessage s ok)) : Emits P (updateDisplay s) := by
  unfold updateDisplay
  refine emits_bind (emits_displayOp _ h) (fun err => ?_)
  cases err with
  | none => exact emits_pure _
  | some e => exact emits_goPanic _

theorem emits_readPressure {P : Event → Prop} (h : ∀ ok, P (Event.measurements ok)) :
    Emits P readPressure := by
  unfold readPressure
  refine emits_bind (emits_measurements h) (fun r => ?_)
  cases r with
  | ok v => exact emits_pure _
  | error e => exact emits_goPanic _

theorem emits_sum {P : Event → Prop} (h : ∀ ok, P (Event.measurements ok)) (n : Nat) :
    ∀ acc, Emits P (marsify.sum n acc) := by
  induction n with
  | zero => intro acc; exact emits_pure _
  | succ n ih =>
    intro acc
    unfold marsify.sum
    exact emits_bind (emits_readPressure h) (fun p => ih _)

theorem emits_calibrate {P : Event → Prop} (h : ∀ ok, P (Event.measurements ok)) :
    Emits P marsify.calibrate := by
  unfold marsify.calibrate
  exact emits_bind (emits_readPressure h)
    (fun _ => emits_bind (emits_sum h 10 _) (fun _ => emits_pure _))

theorem emits_wait {P : Event → Prop} (h : ∀ ok, P (Event.measurements ok))
    (cond : F64 → Bool) (fuel : Nat) : Emits P (marsify.wait cond fuel) := by
  induction fuel with
  | zero => exact emits_hang
  | succ f ih =>
    unfold marsify.wait
    refine emits_bind (emits_readPressure h) (fun p => ?_)
    split
    · exact ih
    · exact emits_pure _

/-- Every operation of `marsify` satisfies `P` as soon as the operations of the
kinds it issues do. -/
theorem emits_marsify {P : Event → Prop} (fuel : Nat) (m : Marsarium)
    (hclear : ∀ ok, P (Event.displayClear ok))
    (hcursor : ∀ col row ok, P (Event.displaySetCursor col row ok))
    (hmsg : ∀ s ok, P (Event.displayMessage s ok))
    (hread : ∀ ok, P (Event.measurements ok))
    (hgas : ∀ pin value ok, P (Event.relaySet Bank.gas pin value ok))
    (hvac : ∀ value ok, P (Event.relaySet Bank.aux VACUUM_RELAY value ok))
    (hother : P (Event.newTicker 1) ∧ P Event.goBlinker ∧ P (Event.sleep FLUSH_TIME)
      ∧ P Event.stopSend) :
    Emits P (marsify fuel m) := by
  unfold marsify
  repeat first
    | exact emits_pure _
    | refine emits_bind (emits_displayOp Event.displayClear hclear) (fun _ => ?_)
    | refine emits_bind (emits_displayOp _ (hcursor _ _)) (fun _ => ?_)
    | refine emits_bind (emits_updateDisplay _ (hmsg _)) (fun _ => ?_)
    | refine emits_bind (emits_emit _ hother.1) (fun _ => ?_)
    | refine emits_bind (emits_emit _ hother.2.1) (fun _ => ?_)
    | refine emits_bind (emits_emit _ hother.2.2.1) (fun _ => ?_)
    | refine emits_bind (emits_emit _ hother.2.2.2) (fun _ => ?_)
    | refine emits_bind (emits_calibrate hread) (fun _ => ?_)
    | refine emits_bind (emits_wait hread _ _) (fun _ => ?_)
    | refine emits_bind (emits_relaySet Bank.gas _ _ (hgas _ _)) (fun _ => ?_)
    | refine emits_bind (emits_relaySet Bank.aux VACUUM_RELAY _ (hvac _)) (fun _ => ?_)

/-- C8: in every execution of `marsify` (returning, panicking or waiting
forever) the control thread only appends to the trace, it never reads a relay,
and each relay write goes to the gas bank or to pin `VACUUM_RELAY = 3` of the
auxiliary bank, which is not the indicator relay `BUTTON_RELAY = 2`: the
sequencer issues no operation on the indicator relay. -/
theorem marsify_leaves_indicator_relay (fuel : Nat) (m : Marsarium) (w : World) :
    (∃ ev, (marsify fuel m w).world.trace = w.trace ++ ev ∧ ∀ e ∈ ev,
        (∀ bank pin value, e ≠ Event.relayGet bank pin value)
        ∧ (∀ bank pin value ok, e = Event.relaySet bank pin value ok →
            bank = Bank.gas ∨ (bank = Bank.aux ∧ pin = VACUUM_RELAY))
        ∧ (∀ value ok, e ≠ Event.relaySet Bank.aux BUTTON_RELAY value ok))
      ∧ VACUUM_RELAY = 3 ∧ BUTTON_RELAY = 2 := by
  refine ⟨?_, rfl, rfl⟩
  have key : Emits SequencerUse (marsify fuel m) := by
    apply emits_marsify <;> simp [SequencerUse]
  obtain ⟨ev, htr, huse⟩ := key w
  refine ⟨ev, htr, fun e he => ⟨(huse e he).1, (huse e he).2, ?_⟩⟩
  intro value ok heq
  rcases (huse e he).2 _ _ _ _ heq with h | ⟨_, h⟩
  · cases h
  · simp [BUTTON_RELAY, VACUUM_RELAY] at h

/-! ## The relay writes of a run that returns -/

theorem relayWrites_append (l1 l2 : List Event) :
    relayWrites (l1 ++ l2) = relayWrites l1 ++ relayWrites l2 := by
  induction l1 with
  | nil => rfl
  | cons e t ih => cases e <;> simp [relayWrites, ih]

theorem writes_bind {α β : Type} {l1 l2 : List Write} {x : M α} {f : α → M β}
    (hx : Writes l1 x) (hf : ∀ a, Writes l2 (f a)) : Writes (l1 ++ l2) (x >>= f) := by
  intro w b w2 h
  obtain ⟨a, w1, h1, h2⟩ := bind_ok_inv h
  rw [hf a w1 b w2 h2, hx w a w1 h1, List.append_assoc]

theorem writes_bind_quiet {α β : Type} {l : List Write} {x : M α} {f : α → M β}
    (hx : Writes [] x) (hf : ∀ a, Writes l (f a)) : Writes l (x >>= f) := by
  simpa using writes_bind hx hf

theorem writes_bind_relay {β : Type} {l : List Write} (bank : Bank) (pin : Nat) (value : Bool)
    {f : Option String → M β} (hf : ∀ a, Writes l (f a)) :
    Writes ((bank, pin, value) :: l) (relaySet bank pin value >>= f) := by
  have hx : Writes [(bank, pin, value)] (relaySet bank pin value) := by
    intro w a w1 h
    rw [relaySet_run] at h
    cases h
    simp [relayWrites_append, relayWrites]
  simpa using writes_bind hx hf

theorem writes_pure {α : Type} (a : α) : Writes [] (pure a : M α) := by
  intro w b w1 h
  rw [pure_run] at h
  cases h
  simp

theorem writes_of_emits {α : Type} {x : M α}
    (h : Emits (fun e => ∀ bank pin value ok, e ≠ Event.relaySet bank pin value ok) x) :
    Writes [] x := by
  intro w a w1 hrun
  obtain ⟨ev, htr, hno⟩ := h w
  rw [hrun] at htr
  simp only [Res.world] at htr
  have hev : relayWrites ev = [] := by
    clear htr
    induction ev with
    | nil => rfl
    | cons e t ih =>
      have he := hno e (List.mem_cons_self _ _)
      have ht := ih (fun e1 h1 => hno e1 (List.mem_cons_of_mem _ h1))
      cases e with
      | relaySet b p v ok => exact absurd rfl (he b p v ok)
      | _ => simpa [relayWrites] using ht
  rw [htr, relayWrites_append, hev]

theorem writes_marsify (fuel : Nat) (m : Marsarium) :
    Writes [(Bank.aux, 3, true), (Bank.gas, 0, true), (Bank.gas, 1, true), (Bank.gas, 1, false),
      (Bank.gas, 0, false), (Bank.aux, 3, false), (Bank.gas, 2, true), (Bank.gas, 2, false),
      (Bank.gas, 3, true), (Bank.gas, 3, false)] (marsify fuel m) := by
  unfold marsify
  repeat first
    | exact writes_pure _
    | refine writes_bind_relay _ _ _ (fun _ => ?_)
    | refine writes_bind_quiet (writes_of_emits (by
        first
        | exact emits_displayOp _ (by simp)
        | exact emits_updateDisplay _ (by simp)
        | exact emits_emit _ (by simp)
        | exact emits_calibrate (by simp)
        | exact emits_wait (by simp) _ _)) (fun _ => ?_)

/-- C1: whenever `marsify` runs to completion, whatever the baseline it
calibrated and whatever the sensor answered, the relay writes the control
thread issued during the call are, in order: vacuum (aux 3) open, air (gas 0)
open, CO2 (gas 1) open, CO2 close, air close, vacuum close, N2 (gas 2) open,
N2 close, Ar (gas 3) open, Ar close. -/
theorem marsify_relay_order (fuel : Nat) (m : Marsarium) (w : World)
    (h : (marsify fuel m w).value?.isSome = true) :
    relayWrites (marsify fuel m w).world.trace
      = relayWrites w.trace ++
        [(Bank.aux, 3, true), (Bank.gas, 0, true), (Bank.gas, 1, true), (Bank.gas, 1, false),
          (Bank.gas, 0, false), (Bank.aux, 3, false), (Bank.gas, 2, true), (Bank.gas, 2, false),
          (Bank.gas, 3, true), (Bank.gas, 3, false)] := by
  cases hrun : marsify fuel m w with
  | ok a w1 => exact writes_marsify fuel m w a w1 hrun
  | panic msg w1 => simp [hrun, Res.value?] at h
  | hang w1 => simp [hrun, Res.value?] at h

/-- C1, on hardware where the chamber is drained and filled. -/
theorem marsify_relay_order_witness :
    (marsify 10 m0 fill).value?.isSome = true
      ∧ relayWrites (marsify 10 m0 fill).world.trace
        = relayWrites fill.trace ++
          [(Bank.aux, 3, true), (Bank.gas, 0, true), (Bank.gas, 1, true), (Bank.gas, 1, false),
            (Bank.gas, 0, false), (Bank.aux, 3, false), (Bank.gas, 2, true), (Bank.gas, 2, false),
            (Bank.gas, 3, true), (Bank.gas, 3, false)] :=
  ⟨by decide!, marsify_relay_order 10 m0 fill (by decide!)⟩

/-! ## Running `marsify` step by step -/

theorem displayClear_adv (w : World) (b s d r c : Nat) (ev : List Event) :
    displayClear (w.adv b s d r c ev) = Res.ok (w.displayErr (w.nDisplay + d))
      (w.adv b s (d + 1) r c
        (ev ++ [Event.displayClear (w.displayErr (w.nDisplay + d)).isNone])) := by
  rw [displayClear_run, adv_adv]
  exact congrArg _ (adv_ext w rfl rfl rfl rfl rfl rfl)

theorem displaySetCursor_adv (col row : Nat) (w : World) (b s d r c : Nat) (ev : List Event) :
    displaySetCursor col row (w.adv b s d r c ev) = Res.ok (w.displayErr (w.nDisplay + d))
      (w.adv b s (d + 1) r c
        (ev ++ [Event.displaySetCursor col row (w.displayErr (w.nDisplay + d)).isNone])) := by
  rw [displaySetCursor_run, adv_adv]
  exact congrArg _ (adv_ext w rfl rfl rfl rfl rfl rfl)

theorem updateDisplay_adv (t : Msg) (w : World) (b s d r c : Nat) (ev : List Event)
    (h : w.displayErr (w.nDisplay + d) = none) :
    updateDisplay t (w.adv b s d r c ev)
      = Res.ok () (w.adv b s (d + 1) r c (ev ++ [Event.displayMessage t true])) := by
  rw [updateDisplay_ok _ _ (by simpa using h), adv_adv]
  exact congrArg _ (adv_ext w rfl rfl rfl rfl rfl rfl)

theorem emit_adv (e : Event) (w : World) (b s d r c : Nat) (ev : List Event) :
    emit e (w.adv b s d r c ev) = Res.ok () (w.adv b s d r c (ev ++ [e])) := by
  rw [emit_run, adv_adv]
  exact congrArg _ (adv_ext w rfl rfl rfl rfl rfl rfl)

theorem relaySet_adv (bank : Bank) (pin : Nat) (value : Bool) (w : World) (b s d r c : Nat)
    (ev : List Event) :
    relaySet bank pin value (w.adv b s d r c ev) = Res.ok (w.relayErr (w.nRelay + r))
      (w.adv b s d (r + 1) c
        (ev ++ [Event.relaySet bank pin value (w.relayErr (w.nRelay + r)).isNone])) := by
  rw [relaySet_run, adv_adv]
  exact congrArg _ (adv_ext w rfl rfl rfl rfl rfl rfl)

theorem calibrate_adv (w : World) (b d r c : Nat) (ev : List Event)
    (h : ∀ i, i < 11 → succeeded (w.sensor (w.nSensor + i)) = true) :
    marsify.calibrate (w.adv b 0 d r c ev)
      = Res.ok w.atmo (w.adv b 11 d r c (ev ++ List.replicate 11 (Event.measurements true))) := by
  rw [calibrate_run _ (by simpa using h), adv_adv]
  exact congrArg₂ _ rfl (adv_ext w rfl (by omega) rfl rfl rfl rfl)

theorem wait_exit_adv (cond : F64 → Bool) (k fuel : Nat) (w : World) (b s d r c : Nat)
    (ev : List Event) (hfuel : k < fuel)
    (hok : ∀ i, i < k + 1 → succeeded (w.sensor (w.nSensor + s + i)) = true)
    (hwait : ∀ i, i < k → cond (w.pressureAt (w.nSensor + s + i)) = true)
    (hexit : cond (w.pressureAt (w.nSensor + s + k)) = false) :
    marsify.wait cond fuel (w.adv b s d r c ev)
      = Res.ok () (w.adv b (s + (k + 1)) d r c
          (ev ++ List.replicate (k + 1) (Event.measurements true))) := by
  rw [wait_exit cond k fuel _ hfuel (by simpa using hok) (by simpa using hwait)
    (by simpa using hexit), adv_adv]
  exact congrArg _ (adv_ext w rfl rfl rfl rfl rfl rfl)

theorem wait_hang_adv (cond : F64 → Bool) (fuel : Nat) (w : World) (b s d r c : Nat)
    (ev : List Event)
    (hok : ∀ i, i < fuel → succeeded (w.sensor (w.nSensor + s + i)) = true)
    (hwait : ∀ i, i < fuel → cond (w.pressureAt (w.nSensor + s + i)) = true) :
    marsify.wait cond fuel (w.adv b s d r c ev)
      = Res.hang (w.adv b (s + fuel) d r c
          (ev ++ List.replicate fuel (Event.measurements true))) := by
  rw [wait_hang cond fuel _ (by simpa using hok) (by simpa using hwait), adv_adv]
  exact congrArg _ (adv_ext w rfl rfl rfl rfl rfl rfl)

theorem observe_append (l1 l2 : List Event) :
    observe (l1 ++ l2) = observe l1 ++ observe l2 := by
  induction l1 with
  | nil => rfl
  | cons e t ih => cases e <;> simp [observe, ih]

theorem observe_reads (n : Nat) :
    observe (List.replicate n (Event.measurements true)) = List.replicate n Obs.read := by
  induction n with
  | zero => rfl
  | succ n ih => simp [List.replicate_succ, observe, ih]

theorem observe_prefix_of_emits {α : Type} {x : M α} {w : World} {l : List Obs}
    (h : Emits (fun _ => True) x) (hw : observe w.trace = l) :
    ∃ rest, observe (x w).world.trace = l ++ rest := by
  obtain ⟨ev, htr, _⟩ := h w
  exact ⟨observe ev, by rw [htr, observe_append, hw]⟩

/-- The whole run of `marsify` when the display works, the sensor answers, the
vacuum wait takes `a + 1` reads, the nitrogen wait `b + 1` and the argon wait
`c + 1`. -/
theorem marsify_run (fuel a b c : Nat) (m : Marsarium) (w : World)
    (hfuel : a < fuel ∧ b < fuel ∧ c < fuel)
    (hdisp : ∀ i, w.displayErr i = none)
    (hok : ∀ i, i < 14 + a + b + c → succeeded (w.sensor (w.nSensor + i)) = true)
    (hvac : ∀ i, i < a →
      F64.lt (F64.mul w.atmo CO2_MIX.toF64) (w.pressureAt (w.nSensor + 11 + i)) = true)
    (hvacx : F64.lt (F64.mul w.atmo CO2_MIX.toF64) (w.pressureAt (w.nSensor + 11 + a)) = false)
    (hn2 : ∀ i, i < b → F64.lt (w.pressureAt (w.nSensor + 12 + a + i))
      (F64.mul w.atmo (CO2_MIX.add N2_MIX).toF64) = true)
    (hn2x : F64.lt (w.pressureAt (w.nSensor + 12 + a + b))
      (F64.mul w.atmo (CO2_MIX.add N2_MIX).toF64) = false)
    (har : ∀ i, i < c → F64.lt (w.pressureAt (w.nSensor + 13 + a + b + i)) w.atmo = true)
    (harx : F64.lt (w.pressureAt (w.nSensor + 13 + a + b + c)) w.atmo = false) :
    ∃ ev, marsify fuel m w = Res.ok (StateFn.monitor, m) (w.adv 0 (14 + a + b + c) 8 10 0 ev)
      ∧ observe ev = List.replicate 11 Obs.read
          ++ [Obs.write Bank.aux 3 true, Obs.write Bank.gas 0 true, Obs.write Bank.gas 1 true,
            Obs.write Bank.gas 1 false]
          ++ List.replicate (a + 1) Obs.read
          ++ [Obs.write Bank.gas 0 false, Obs.write Bank.aux 3 false, Obs.write Bank.gas 2 true]
          ++ List.replicate (b + 1) Obs.read
          ++ [Obs.write Bank.gas 2 false, Obs.write Bank.gas 3 true]
          ++ List.replicate (c + 1) Obs.read
          ++ [Obs.write Bank.gas 3 false] := by
  have hstart : marsify fuel m w = marsify fuel m (w.adv 0 0 0 0 0 []) := by rw [adv_zero]
  rw [hstart]
  unfold marsify
  rw [bind_ok (displayClear_adv _ _ _ _ _ _ _), bind_ok (displaySetCursor_adv _ _ _ _ _ _ _ _ _),
    bind_ok (updateDisplay_adv _ _ _ _ _ _ _ _ (hdisp _)), bind_ok (emit_adv _ _ _ _ _ _ _ _),
    bind_ok (emit_adv _ _ _ _ _ _ _ _),
    bind_ok (calibrate_adv _ _ _ _ _ _ (fun i hi => hok i (by omega))),
    bind_ok (relaySet_adv _ _ _ _ _ _ _ _ _ _), bind_ok (relaySet_adv _ _ _ _ _ _ _ _ _ _),
    bind_ok (relaySet_adv _ _ _ _ _ _ _ _ _ _), bind_ok (emit_adv _ _ _ _ _ _ _ _),
    bind_ok (relaySet_adv _ _ _ _ _ _ _ _ _ _),
    bind_ok (wait_exit_adv _ a fuel _ _ 11 _ _ _ _ hfuel.1
      (fun i hi => by simpa [Nat.add_assoc] using hok (11 + i) (by omega)) hvac hvacx),
    bind_ok (relaySet_adv _ _ _ _ _ _ _ _ _ _), bind_ok (relaySet_adv _ _ _ _ _ _ _ _ _ _),
    bind_ok (relaySet_adv _ _ _ _ _ _ _ _ _ _),
    bind_ok (wait_exit_adv _ b fuel _ _ (11 + (a + 1)) _ _ _ _ hfuel.2.1
      (fun i hi => by simpa [Nat.add_assoc] using hok (11 + (a + 1) + i) (by omega))
      (fun i hi => by
        rw [show w.nSensor + (11 + (a + 1)) + i = w.nSensor + 12 + a + i by omega]
        exact hn2 i hi)
      (by
        rw [show w.nSensor + (11 + (a + 1)) + b = w.nSensor + 12 + a + b by omega]
        exact hn2x)),
    bind_ok (relaySet_adv _ _ _ _ _ _ _ _ _ _), bind_ok (relaySet_adv _ _ _ _ _ _ _ _ _ _),
    bind_ok (wait_exit_adv _ c fuel _ _ (11 + (a + 1) + (b + 1)) _ _ _ _ hfuel.2.2
      (fun i hi => by
        simpa [Nat.add_assoc] using hok (11 + (a + 1) + (b + 1) + i) (by omega))
      (fun i hi => by
        rw [show w.nSensor + (11 + (a + 1) + (b + 1)) + i = w.nSensor + 13 + a + b + i by omega]
        exact har i hi)
      (by
        rw [show w.nSensor + (11 + (a + 1) + (b + 1)) + c = w.nSensor + 13 + a + b + c by omega]
        exact harx)),
    bind_ok (relaySet_adv _ _ _ _ _ _ _ _ _ _), bind_ok (emit_adv _ _ _ _ _ _ _ _),
    bind_ok (displayClear_adv _ _ _ _ _ _ _), bind_ok (displaySetCursor_adv _ _ _ _ _ _ _ _ _),
    bind_ok (updateDisplay_adv _ _ _ _ _ _ _ _ (hdisp _)),
    bind_ok (displaySetCursor_adv _ _ _ _ _ _ _ _ _),
    bind_ok (updateDisplay_adv _ _ _ _ _ _ _ _ (hdisp _)), pure_run]
  refine ⟨_, congrArg _ (adv_ext w rfl (by omega) rfl rfl rfl rfl), ?_⟩
  simp only [observe_append]
  simp only [observe_reads]
  simp only [observe]
  simp only [VACUUM_RELAY, AIR_RELAY, CO2_RELAY, N2_RELAY, Ar_RELAY]
  simp only [List.append_assoc, List.nil_append, List.cons_append, List.append_nil]

/-- The run of `marsify` up to the closing of the air and vacuum relays, when
the vacuum wait takes `a + 1` reads. -/
theorem marsify_drain_prefix (fuel a : Nat) (m : Marsarium) (w : World) (hfuel : a < fuel)
    (hdisp : ∀ i, w.displayErr i = none)
    (hok : ∀ i, i < 12 + a → succeeded (w.sensor (w.nSensor + i)) = true)
    (hvac : ∀ i, i < a →
      F64.lt (F64.mul w.atmo CO2_MIX.toF64) (w.pressureAt (w.nSensor + 11 + i)) = true)
    (hvacx : F64.lt (F64.mul w.atmo CO2_MIX.toF64) (w.pressureAt (w.nSensor + 11 + a)) = false) :
    ∃ rest, observe (marsify fuel m w).world.trace
      = (observe w.trace ++ (List.replicate 11 Obs.read
          ++ [Obs.write Bank.aux 3 true, Obs.write Bank.gas 0 true, Obs.write Bank.gas 1 true,
            Obs.write Bank.gas 1 false]
          ++ List.replicate (a + 1) Obs.read
          ++ [Obs.write Bank.gas 0 false, Obs.write Bank.aux 3 false])) ++ rest := by
  have hstart : marsify fuel m w = marsify fuel m (w.adv 0 0 0 0 0 []) := by rw [adv_zero]
  rw [hstart]
  unfold marsify
  rw [bind_ok (displayClear_adv _ _ _ _ _ _ _), bind_ok (displaySetCursor_adv _ _ _ _ _ _ _ _ _),
    bind_ok (updateDisplay_adv _ _ _ _ _ _ _ _ (hdisp _)), bind_ok (emit_adv _ _ _ _ _ _ _ _),
    bind_ok (emit_adv _ _ _ _ _ _ _ _),
    bind_ok (calibrate_adv _ _ _ _ _ _ (fun i hi => hok i (by omega))),
    bind_ok (relaySet_adv _ _ _ _ _ _ _ _ _ _), bind_ok (relaySet_adv _ _ _ _ _ _ _ _ _ _),
    bind_ok (relaySet_adv _ _ _ _ _ _ _ _ _ _), bind_ok (emit_adv _ _ _ _ _ _ _ _),
    bind_ok (relaySet_adv _ _ _ _ _ _ _ _ _ _),
    bind_ok (wait_exit_adv _ a fuel _ _ 11 _ _ _ _ hfuel
      (fun i hi => by simpa [Nat.add_assoc] using hok (11 + i) (by omega)) hvac hvacx),
    bind_ok (relaySet_adv _ _ _ _ _ _ _ _ _ _), bind_ok (relaySet_adv _ _ _ _ _ _ _ _ _ _)]
  refine observe_prefix_of_emits ?_ ?_
  · repeat first
      | exact emits_pure _
      | refine emits_bind (emits_displayOp _ (fun _ => trivial)) (fun _ => ?_)
      | refine emits_bind (emits_updateDisplay _ (fun _ => trivial)) (fun _ => ?_)
      | refine emits_bind (emits_emit _ trivial) (fun _ => ?_)
      | refine emits_bind (emits_wait (fun _ => trivial) _ _) (fun _ => ?_)
      | refine emits_bind (emits_relaySet _ _ _ (fun _ => trivial)) (fun _ => ?_)
  · simp only [adv_trace]
    simp only [observe_append]
    simp only [observe_reads]
    simp only [observe]
    simp only [VACUUM_RELAY, AIR_RELAY, CO2_RELAY]
    simp only [List.append_assoc, List.nil_append, List.cons_append, List.append_nil]

/-- The run of `marsify` when the pressure stays above 96 % of the baseline for
the whole step budget of the vacuum wait. -/
theorem marsify_drain_hang (fuel : Nat) (m : Marsarium) (w : World)
    (hdisp : ∀ i, w.displayErr i = none)
    (hok : ∀ i, i < 11 + fuel → succeeded (w.sensor (w.nSensor + i)) = true)
    (hvac : ∀ i, i < fuel →
      F64.lt (F64.mul w.atmo CO2_MIX.toF64) (w.pressureAt (w.nSensor + 11 + i)) = true) :
    ∃ ev, marsify fuel m w = Res.hang (w.adv 0 (11 + fuel) 3 4 0 ev)
      ∧ observe ev = List.replicate 11 Obs.read
          ++ [Obs.write Bank.aux 3 true, Obs.write Bank.gas 0 true, Obs.write Bank.gas 1 true,
            Obs.write Bank.gas 1 false]
          ++ List.replicate fuel Obs.read := by
  have hstart : marsify fuel m w = marsify fuel m (w.adv 0 0 0 0 0 []) := by rw [adv_zero]
  rw [hstart]
  unfold marsify
  rw [bind_ok (displayClear_adv _ _ _ _ _ _ _), bind_ok (displaySetCursor_adv _ _ _ _ _ _ _ _ _),
    bind_ok (updateDisplay_adv _ _ _ _ _ _ _ _ (hdisp _)), bind_ok (emit_adv _ _ _ _ _ _ _ _),
    bind_ok (emit_adv _ _ _ _ _ _ _ _),
    bind_ok (calibrate_adv _ _ _ _ _ _ (fun i hi => hok i (by omega))),
    bind_ok (relaySet_adv _ _ _ _ _ _ _ _ _ _), bind_ok (relaySet_adv _ _ _ _ _ _ _ _ _ _),
    bind_ok (relaySet_adv _ _ _ _ _ _ _ _ _ _), bind_ok (emit_adv _ _ _ _ _ _ _ _),
    bind_ok (relaySet_adv _ _ _ _ _ _ _ _ _ _),
    bind_hang (wait_hang_adv _ fuel _ _ 11 _ _ _ _
      (fun i hi => by simpa [Nat.add_assoc] using hok (11 + i) (by omega)) hvac)]
  refine ⟨_, congrArg _ (adv_ext w rfl rfl rfl rfl rfl rfl), ?_⟩
  simp only [observe_append]
  simp only [observe_reads]
  simp only [observe]
  simp only [VACUUM_RELAY, AIR_RELAY, CO2_RELAY]
  simp only [List.append_assoc, List.nil_append, List.cons_append, List.append_nil]

theorem lt_of_ge_false (p t : F64) (hp : p.isNum = true) (ht : t.isNum = true)
    (h : F64.ge p t = false) : F64.lt p t = true := by
  rw [F64.lt_eq_not_ge p t hp ht, h]
  rfl

theorem not_lt_of_ge (p t : F64) (hp : p.isNum = true) (ht : t.isNum = true)
    (h : F64.ge p t = true) : F64.lt p t = false := by
  rw [F64.lt_eq_not_ge p t hp ht, h]
  rfl

theorem lt_of_le_false (p t : F64) (hp : p.isNum = true) (ht : t.isNum = true)
    (h : F64.le p t = false) : F64.lt t p = true := by
  rw [F64.lt_eq_not_ge t p ht hp]
  simp [F64.ge, h]

theorem not_lt_of_le (p t : F64) (hp : p.isNum = true) (ht : t.isNum = true)
    (h : F64.le p t = true) : F64.lt t p = false := by
  rw [F64.lt_eq_not_ge t p ht hp]
  simp [F64.ge, h]

theorem CO2_N2_Ar_MIX_toF64 :
    ((CO2_MIX.add N2_MIX).add Ar_MIX).toF64 = F64.fin false (2 ^ 1074) := by
  decide!

theorem isNum_of_div (x y : F64) (h : (F64.div x y).isNum = true) : x.isNum = true := by
  cases x with
  | nan => simp [F64.div, F64.isNum] at h
  | inf a => rfl
  | fin a u => rfl

/-- The Ar threshold `atmo * 1.00` is the baseline itself: `marsify` compares
with `atmo`. -/
theorem atmo_mul_one (w : World) (h : w.atmo.isNum = true) :
    F64.mul w.atmo ((CO2_MIX.add N2_MIX).add Ar_MIX).toF64 = w.atmo := by
  unfold World.atmo at h ⊢
  rw [CO2_N2_Ar_MIX_toF64, F64.ofRat_ten] at *
  exact F64.div_mul_one _ _ _ (Nat.pos_iff_ne_zero.1 (by positivity)) (isNum_of_div _ _ h)

/-- C3, as the code has it: with a working display, sensor readings that are
numbers (no NaN) and a baseline `atmo` that is a number (it is one whenever the
calibration readings are finite), let the vacuum wait end at its read number
`a + 1`. If, after the N2 relay is opened, the first `b`
readings `p` have `p >= atmo * 0.98` false and the next one has it true, and,
after the Ar relay is opened, the first `c` readings have `p >= atmo * 1.00`
false and the next one has it true, then `marsify` returns (to `monitor`) and
its sensor reads and relay writes are exactly: 11 calibration reads, the flush writes,
`a + 1` reads, air and vacuum closed, N2 opened, `b + 1` reads, N2 closed, Ar
opened, `c + 1` reads, Ar closed. So every iteration of a wait is one new
sensor read, and each relay is closed right after the first reading that
reaches its threshold, not before and not after. (`0.98` is the constant
`CO2_MIX + N2_MIX` and `1.00` the constant `CO2_MIX + N2_MIX + Ar_MIX`; the code
compares with `atmo` itself for Ar, which is the same float64.) For the
baseline `1000.0` the N2 threshold `1000.0 * 0.98` is `980.0` and the Ar
threshold `1000.0 * 1.00` is `1000.0`. -/
theorem marsify_closes_at_first_reading_reaching_threshold (fuel a b c : Nat) (m : Marsarium)
    (w : World) (hfuel : a < fuel ∧ b < fuel ∧ c < fuel)
    (hdisp : ∀ i, w.displayErr i = none)
    (hok : ∀ i, i < 14 + a + b + c → succeeded (w.sensor (w.nSensor + i)) = true
      ∧ (w.pressureAt (w.nSensor + i)).isNum = true)
    (hB : w.atmo.isNum = true)
    (hvac : ∀ i, i < a →
      F64.le (w.pressureAt (w.nSensor + 11 + i)) (F64.mul w.atmo CO2_MIX.toF64) = false)
    (hvacx : F64.le (w.pressureAt (w.nSensor + 11 + a)) (F64.mul w.atmo CO2_MIX.toF64) = true)
    (hn2 : ∀ i, i < b → F64.ge (w.pressureAt (w.nSensor + 12 + a + i))
      (F64.mul w.atmo (CO2_MIX.add N2_MIX).toF64) = false)
    (hn2x : F64.ge (w.pressureAt (w.nSensor + 12 + a + b))
      (F64.mul w.atmo (CO2_MIX.add N2_MIX).toF64) = true)
    (har : ∀ i, i < c → F64.ge (w.pressureAt (w.nSensor + 13 + a + b + i))
      (F64.mul w.atmo ((CO2_MIX.add N2_MIX).add Ar_MIX).toF64) = false)
    (harx : F64.ge (w.pressureAt (w.nSensor + 13 + a + b + c))
      (F64.mul w.atmo ((CO2_MIX.add N2_MIX).add Ar_MIX).toF64) = true) :
    (marsify fuel m w).value? = some (StateFn.monitor, m)
      ∧ observe (marsify fuel m w).world.trace = observe w.trace ++
          (List.replicate 11 Obs.read
          ++ [Obs.write Bank.aux 3 true, Obs.write Bank.gas 0 true, Obs.write Bank.gas 1 true,
            Obs.write Bank.gas 1 false]
          ++ List.replicate (a + 1) Obs.read
          ++ [Obs.write Bank.gas 0 false, Obs.write Bank.aux 3 false, Obs.write Bank.gas 2 true]
          ++ List.replicate (b + 1) Obs.read
          ++ [Obs.write Bank.gas 2 false, Obs.write Bank.gas 3 true]
          ++ List.replicate (c + 1) Obs.read
          ++ [Obs.write Bank.gas 3 false])
      ∧ F64.mul (F64.ofRat 1000 1) (CO2_MIX.add N2_MIX).toF64 = F64.ofRat 980 1
      ∧ F64.mul (F64.ofRat 1000 1) ((CO2_MIX.add N2_MIX).add Ar_MIX).toF64
          = F64.ofRat 1000 1 := by
  rw [atmo_mul_one w hB] at harx
  simp only [atmo_mul_one w hB] at har
  obtain ⟨ev, hrun, hobs⟩ := marsify_run fuel a b c m w hfuel hdisp (fun i hi => (hok i hi).1)
    (fun i hi => lt_of_le_false _ _ (by simpa [Nat.add_assoc] using (hok (11 + i) (by omega)).2)
      (isNum_atmo_CO2 w hB) (hvac i hi))
    (not_lt_of_le _ _ (by simpa [Nat.add_assoc] using (hok (11 + a) (by omega)).2)
      (isNum_atmo_CO2 w hB) hvacx)
    (fun i hi => lt_of_ge_false _ _
      (by simpa [Nat.add_assoc] using (hok (12 + a + i) (by omega)).2)
      (isNum_atmo_N2 w hB) (hn2 i hi))
    (not_lt_of_ge _ _ (by simpa [Nat.add_assoc] using (hok (12 + a + b) (by omega)).2)
      (isNum_atmo_N2 w hB) hn2x)
    (fun i hi => lt_of_ge_false _ _
      (by simpa [Nat.add_assoc] using (hok (13 + a + b + i) (by omega)).2) hB (har i hi))
    (not_lt_of_ge _ _ (by simpa [Nat.add_assoc] using (hok (13 + a + b + c) (by omega)).2)
      hB harx)
  refine ⟨by rw [hrun]; rfl, by rw [hrun]; simp only [Res.world, adv_trace, observe_append, hobs],
    by decide!, by decide!⟩

/-- C3, on hardware with baseline `1000.0`: the vacuum wait ends at `960`, the
N2 wait at the first reading `>= 980` and the Ar wait at the first `>= 1000`. -/
theorem marsify_closes_at_first_reading_reaching_threshold_witness :
    fill.atmo = F64.ofRat 1000 1
    ∧ ((2 < 10 ∧ 2 < 10 ∧ 2 < 10)
      ∧ (∀ i, fill.displayErr i = none)
      ∧ (∀ i, i < 14 + 2 + 2 + 2 → succeeded (fill.sensor (fill.nSensor + i)) = true
          ∧ (fill.pressureAt (fill.nSensor + i)).isNum = true)
      ∧ fill.atmo.isNum = true
      ∧ (∀ i, i < 2 →
          F64.le (fill.pressureAt (fill.nSensor + 11 + i)) (F64.mul fill.atmo CO2_MIX.toF64)
            = false)
      ∧ F64.le (fill.pressureAt (fill.nSensor + 11 + 2)) (F64.mul fill.atmo CO2_MIX.toF64) = true
      ∧ (∀ i, i < 2 → F64.ge (fill.pressureAt (fill.nSensor + 12 + 2 + i))
          (F64.mul fill.atmo (CO2_MIX.add N2_MIX).toF64) = false)
      ∧ F64.ge (fill.pressureAt (fill.nSensor + 12 + 2 + 2))
          (F64.mul fill.atmo (CO2_MIX.add N2_MIX).toF64) = true
      ∧ (∀ i, i < 2 → F64.ge (fill.pressureAt (fill.nSensor + 13 + 2 + 2 + i))
          (F64.mul fill.atmo ((CO2_MIX.add N2_MIX).add Ar_MIX).toF64) = false)
      ∧ F64.ge (fill.pressureAt (fill.nSensor + 13 + 2 + 2 + 2))
          (F64.mul fill.atmo ((CO2_MIX.add N2_MIX).add Ar_MIX).toF64) = true)
    ∧ ((marsify 10 m0 fill).value? = some (StateFn.monitor, m0)
      ∧ observe (marsify 10 m0 fill).world.trace = observe fill.trace ++
          (List.replicate 11 Obs.read
          ++ [Obs.write Bank.aux 3 true, Obs.write Bank.gas 0 true, Obs.write Bank.gas 1 true,
            Obs.write Bank.gas 1 false]
          ++ List.replicate (2 + 1) Obs.read
          ++ [Obs.write Bank.gas 0 false, Obs.write Bank.aux 3 false, Obs.write Bank.gas 2 true]
          ++ List.replicate (2 + 1) Obs.read
          ++ [Obs.write Bank.gas 2 false, Obs.write Bank.gas 3 true]
          ++ List.replicate (2 + 1) Obs.read
          ++ [Obs.write Bank.gas 3 false])
      ∧ F64.mul (F64.ofRat 1000 1) (CO2_MIX.add N2_MIX).toF64 = F64.ofRat 980 1
      ∧ F64.mul (F64.ofRat 1000 1) ((CO2_MIX.add N2_MIX).add Ar_MIX).toF64
          = F64.ofRat 1000 1) :=
  ⟨by decide!,
    ⟨by decide, fun _ => rfl, by decide!, by decide!, by decide!, by decide!, by decide!,
      by decide!, by decide!, by decide!⟩,
    marsify_closes_at_first_reading_reaching_threshold 10 2 2 2 m0 fill (by decide)
      (fun _ => rfl) (by decide!) (by decide!) (by decide!) (by decide!) (by decide!)
      (by decide!) (by decide!) (by decide!)⟩

/-- C3 fails as stated: when the first reading after the N2 relay is opened is
NaN, `p >= atmo * 0.98` is false for it, yet `p < atmo * 0.98` is false too, the
loop ends and the N2 relay is closed right after that read; the same happens
to the Ar relay at the NaN that follows. -/
theorem marsify_closes_on_nan_reading :
    (∀ i, i < 14 → succeeded (glitchFill.sensor (glitchFill.nSensor + i)) = true)
      ∧ glitchFill.atmo = F64.ofRat 1000 1
      ∧ glitchFill.pressureAt (glitchFill.nSensor + 12) = F64.nan
      ∧ F64.ge (glitchFill.pressureAt (glitchFill.nSensor + 12))
          (F64.mul glitchFill.atmo (CO2_MIX.add N2_MIX).toF64) = false
      ∧ glitchFill.pressureAt (glitchFill.nSensor + 13) = F64.nan
      ∧ F64.ge (glitchFill.pressureAt (glitchFill.nSensor + 13))
          (F64.mul glitchFill.atmo ((CO2_MIX.add N2_MIX).add Ar_MIX).toF64) = false
      ∧ (marsify 3 m0 glitchFill).value? = some (StateFn.monitor, m0)
      ∧ observe (marsify 3 m0 glitchFill).world.trace =
          List.replicate 11 Obs.read
          ++ [Obs.write Bank.aux 3 true, Obs.write Bank.gas 0 true, Obs.write Bank.gas 1 true,
            Obs.write Bank.gas 1 false]
          ++ [Obs.read]
          ++ [Obs.write Bank.gas 0 false, Obs.write Bank.aux 3 false, Obs.write Bank.gas 2 true]
          ++ [Obs.read]
          ++ [Obs.write Bank.gas 2 false, Obs.write Bank.gas 3 true]
          ++ [Obs.read]
          ++ [Obs.write Bank.gas 3 false] := by
  decide!

/-- C10, as the code has it: with a working display, sensor readings that are
numbers (no NaN) and a baseline `atmo` that is a number, after calibration,
the flush writes and the closing of the CO2 relay, `marsify` reads the sensor
again and again while `atmo * 0.96 < p`, that is, until `p <= atmo * 0.96`,
with no relay write in between. If the first `a` readings of the wait do not
have `p <= atmo * 0.96` and the next one has, the air and vacuum relays are
closed right after that read number `a + 1`.
If no reading ever has `p <= atmo * 0.96`, the wait uses up every step budget:
`marsify` never returns, and its reads and writes are the calibration reads, the
flush writes and sensor reads only, so the air and vacuum relays are not closed
and the N2 relay is not opened. -/
theorem marsify_vacuum_wait (m : Marsarium) (w : World) (hdisp : ∀ i, w.displayErr i = none)
    (hB : w.atmo.isNum = true) :
    (∀ a fuel, a < fuel →
      (∀ i, i < 12 + a → succeeded (w.sensor (w.nSensor + i)) = true
        ∧ (w.pressureAt (w.nSensor + i)).isNum = true) →
      (∀ i, i < a →
        F64.le (w.pressureAt (w.nSensor + 11 + i)) (F64.mul w.atmo CO2_MIX.toF64) = false) →
      F64.le (w.pressureAt (w.nSensor + 11 + a)) (F64.mul w.atmo CO2_MIX.toF64) = true →
      ∃ rest, observe (marsify fuel m w).world.trace
        = (observe w.trace ++ (List.replicate 11 Obs.read
            ++ [Obs.write Bank.aux 3 true, Obs.write Bank.gas 0 true, Obs.write Bank.gas 1 true,
              Obs.write Bank.gas 1 false]
            ++ List.replicate (a + 1) Obs.read
            ++ [Obs.write Bank.gas 0 false, Obs.write Bank.aux 3 false])) ++ rest)
    ∧ ((∀ i, succeeded (w.sensor (w.nSensor + i)) = true
          ∧ (w.pressureAt (w.nSensor + i)).isNum = true) →
      (∀ i, F64.le (w.pressureAt (w.nSensor + 11 + i)) (F64.mul w.atmo CO2_MIX.toF64) = false) →
      ∀ fuel, (marsify fuel m w).isHang = true
        ∧ observe (marsify fuel m w).world.trace = observe w.trace ++
          (List.replicate 11 Obs.read
            ++ [Obs.write Bank.aux 3 true, Obs.write Bank.gas 0 true, Obs.write Bank.gas 1 true,
              Obs.write Bank.gas 1 false]
            ++ List.replicate fuel Obs.read)) := by
  constructor
  · intro a fuel hfuel hok hwait hexit
    exact marsify_drain_prefix fuel a m w hfuel hdisp (fun i hi => (hok i hi).1)
      (fun i hi => lt_of_le_false _ _
        (by simpa [Nat.add_assoc] using (hok (11 + i) (by omega)).2) (isNum_atmo_CO2 w hB)
        (hwait i hi))
      (not_lt_of_le _ _ (by simpa [Nat.add_assoc] using (hok (11 + a) (by omega)).2)
        (isNum_atmo_CO2 w hB) hexit)
  · intro hok hnever fuel
    obtain ⟨ev, hrun, hobs⟩ := marsify_drain_hang fuel m w hdisp (fun i _ => (hok i).1)
      (fun i _ => lt_of_le_false _ _ (by simpa [Nat.add_assoc] using (hok (11 + i)).2)
        (isNum_atmo_CO2 w hB) (hnever i))
    exact ⟨by rw [hrun]; rfl,
      by rw [hrun]; simp only [Res.world, adv_trace, observe_append, hobs]⟩

theorem stuck_sensor (i : Nat) : succeeded (stuck.sensor i) = true := rfl

theorem stuck_pressureAt (i : Nat) : stuck.pressureAt i = F64.ofRat 1000 1 := by
  simp only [World.pressureAt, stuck, calm, sample]

theorem glitchDrain_pressureAt (i : Nat) (h : i ≠ 1) :
    glitchDrain.pressureAt (glitchDrain.nSensor + 11 + i) = F64.ofRat 1000 1 := by
  have hne : ¬ (glitchDrain.nSensor + 11 + i = 12) := by
    show ¬ (0 + 11 + i = 12)
    omega
  simp only [World.pressureAt, glitchDrain, calm, sample] at hne ⊢
  rw [if_neg hne]

/-- C10, on hardware where the vacuum wait ends at its third read, and on
hardware where the pressure never drops. -/
theorem marsify_vacuum_wait_witness :
    ((∀ i, fill.displayErr i = none) ∧ fill.atmo.isNum = true ∧ 2 < 10
      ∧ (∀ i, i < 12 + 2 → succeeded (fill.sensor (fill.nSensor + i)) = true
          ∧ (fill.pressureAt (fill.nSensor + i)).isNum = true)
      ∧ (∀ i, i < 2 →
          F64.le (fill.pressureAt (fill.nSensor + 11 + i)) (F64.mul fill.atmo CO2_MIX.toF64)
            = false)
      ∧ F64.le (fill.pressureAt (fill.nSensor + 11 + 2)) (F64.mul fill.atmo CO2_MIX.toF64)
          = true)
    ∧ (∃ rest, observe (marsify 10 m0 fill).world.trace
        = (observe fill.trace ++ (List.replicate 11 Obs.read
            ++ [Obs.write Bank.aux 3 true, Obs.write Bank.gas 0 true, Obs.write Bank.gas 1 true,
              Obs.write Bank.gas 1 false]
            ++ List.replicate (2 + 1) Obs.read
            ++ [Obs.write Bank.gas 0 false, Obs.write Bank.aux 3 false])) ++ rest)
    ∧ ((∀ i, stuck.displayErr i = none) ∧ stuck.atmo.isNum = true
      ∧ (∀ i, succeeded (stuck.sensor (stuck.nSensor + i)) = true
          ∧ (stuck.pressureAt (stuck.nSensor + i)).isNum = true)
      ∧ (∀ i, F64.le (stuck.pressureAt (stuck.nSensor + 11 + i))
          (F64.mul stuck.atmo CO2_MIX.toF64) = false))
    ∧ (∀ fuel, (marsify fuel m0 stuck).isHang = true
        ∧ observe (marsify fuel m0 stuck).world.trace = observe stuck.trace ++
          (List.replicate 11 Obs.read
            ++ [Obs.write Bank.aux 3 true, Obs.write Bank.gas 0 true, Obs.write Bank.gas 1 true,
              Obs.write Bank.gas 1 false]
            ++ List.replicate fuel Obs.read)) := by
  have hnum : ∀ i, succeeded (stuck.sensor (stuck.nSensor + i)) = true
      ∧ (stuck.pressureAt (stuck.nSensor + i)).isNum = true := by
    intro i
    refine ⟨stuck_sensor _, ?_⟩
    rw [stuck_pressureAt]
    decide!
  have hhigh : ∀ i, F64.le (stuck.pressureAt (stuck.nSensor + 11 + i))
      (F64.mul stuck.atmo CO2_MIX.toF64) = false := by
    intro i
    rw [stuck_pressureAt]
    decide!
  exact ⟨⟨fun _ => rfl, by decide!, by decide, by decide!, by decide!, by decide!⟩,
    (marsify_vacuum_wait m0 fill (fun _ => rfl) (by decide!)).1 2 10 (by decide) (by decide!)
      (by decide!) (by decide!),
    ⟨fun _ => rfl, by decide!, hnum, hhigh⟩,
    (marsify_vacuum_wait m0 stuck (fun _ => rfl) (by decide!)).2 hnum hhigh⟩

/-- C10 fails as stated: with the pressure steady at 1000 but for one NaN, no
reading ever has `p <= atmo * 0.96`, yet at the NaN `atmo * 0.96 < p` is false
too: the vacuum wait ends at its second read, the air and vacuum relays are
closed, the N2 relay is opened and `marsify` returns. -/
theorem marsify_vacuum_wait_ends_on_nan :
    (∀ i, succeeded (glitchDrain.sensor (glitchDrain.nSensor + i)) = true)
      ∧ (∀ i, F64.le (glitchDrain.pressureAt (glitchDrain.nSensor + 11 + i))
          (F64.mul glitchDrain.atmo CO2_MIX.toF64) = false)
      ∧ glitchDrain.pressureAt (glitchDrain.nSensor + 11 + 1) = F64.nan
      ∧ (marsify 3 m0 glitchDrain).value? = some (StateFn.monitor, m0)
      ∧ observe (marsify 3 m0 glitchDrain).world.trace =
          List.replicate 11 Obs.read
          ++ [Obs.write Bank.aux 3 true, Obs.write Bank.gas 0 true, Obs.write Bank.gas 1 true,
            Obs.write Bank.gas 1 false]
          ++ [Obs.read, Obs.read]
          ++ [Obs.write Bank.gas 0 false, Obs.write Bank.aux 3 false, Obs.write Bank.gas 2 true]
          ++ [Obs.read]
          ++ [Obs.write Bank.gas 2 false, Obs.write Bank.gas 3 true]
          ++ [Obs.read]
          ++ [Obs.write Bank.gas 3 false] := by
  refine ⟨fun _ => rfl, ?_, by decide!, by decide!, by decide!⟩
  intro i
  by_cases h : i = 1
  · subst h
    decide!
  · rw [glitchDrain_pressureAt i h]
    decide!
/-! ## The calibrated baseline -/

/-- C2, as the code has it: when the first eleven sensor reads succeed,
`marsify` leaves out the first pressure and computes `atmo` from the next ten:
it adds them to `0.0` in the order read, each sum rounded to binary64, and
divides by `10.0`, rounded again; eleven answers of the sensor are consumed. The
result is the mean of the ten readings up to these roundings. When the ten
readings are one value `v` whose multiples up to `10 * v` are exact (a
significand of at most 49 bits, no overflow), the baseline is `v`. -/
theorem calibrate_rounded_mean (w : World)
    (hok : ∀ i, i < 11 → succeeded (w.sensor (w.nSensor + i)) = true) :
    marsify.calibrate w
        = Res.ok
          (F64.div
            (F64.add (F64.add (F64.add (F64.add (F64.add (F64.add (F64.add (F64.add (F64.add
              (F64.add (F64.ofRat 0 1)
                (w.pressureAt (w.nSensor + 1))) (w.pressureAt (w.nSensor + 2)))
                (w.pressureAt (w.nSensor + 3))) (w.pressureAt (w.nSensor + 4)))
                (w.pressureAt (w.nSensor + 5))) (w.pressureAt (w.nSensor + 6)))
                (w.pressureAt (w.nSensor + 7))) (w.pressureAt (w.nSensor + 8)))
                (w.pressureAt (w.nSensor + 9))) (w.pressureAt (w.nSensor + 10)))
            (F64.ofRat 10 1))
          (w.adv 0 11 0 0 0 (List.replicate 11 (Event.measurements true)))
      ∧ ∀ (neg : Bool) (a e : Nat), 0 < a → a < 2 ^ 49 → 10 * (a * 2 ^ e) ≤ F64.maxUnits →
          (∀ i, i < 10 → w.pressureAt (w.nSensor + 1 + i) = F64.fin neg (a * 2 ^ e)) →
          marsify.calibrate w = Res.ok (F64.fin neg (a * 2 ^ e))
            (w.adv 0 11 0 0 0 (List.replicate 11 (Event.measurements true))) := by
  constructor
  · have hmean : w.atmo = F64.div
        (F64.add (F64.add (F64.add (F64.add (F64.add (F64.add (F64.add (F64.add (F64.add
          (F64.add (F64.ofRat 0 1)
            (w.pressureAt (w.nSensor + 1))) (w.pressureAt (w.nSensor + 2)))
            (w.pressureAt (w.nSensor + 3))) (w.pressureAt (w.nSensor + 4)))
            (w.pressureAt (w.nSensor + 5))) (w.pressureAt (w.nSensor + 6)))
            (w.pressureAt (w.nSensor + 7))) (w.pressureAt (w.nSensor + 8)))
            (w.pressureAt (w.nSensor + 9))) (w.pressureAt (w.nSensor + 10)))
        (F64.ofRat 10 1) := by
      unfold World.atmo
      rw [show List.range 10 = [0, 1, 2, 3, 4, 5, 6, 7, 8, 9] from by decide]
      simp only [List.map_cons, List.map_nil, List.foldl_cons, List.foldl_nil, Nat.add_assoc,
        Nat.reduceAdd, Nat.add_zero]
    rw [calibrate_run w hok, hmean]
  · intro neg a e ha0 ha hmax hv
    have hmean : w.atmo = F64.fin neg (a * 2 ^ e) := by
      unfold World.atmo
      have hlist : (List.range 10).map (fun i => w.pressureAt (w.nSensor + 1 + i))
          = List.replicate 10 (F64.fin neg (a * 2 ^ e)) := by
        apply List.eq_replicate_iff.2
        refine ⟨by simp, ?_⟩
        intro b hb
        obtain ⟨i, hi, rfl⟩ := List.mem_map.1 hb
        exact hv i (List.mem_range.1 hi)
      rw [hlist]
      exact F64.mean_of_copies neg a e ha0 ha hmax
    rw [calibrate_run w hok, hmean]

/-- C2 as the code has it, on hardware with the steady pressure `101325.0`. -/
theorem calibrate_rounded_mean_witness :
    (∀ i, i < 11 → succeeded (standard.sensor (standard.nSensor + i)) = true)
    ∧ (0 < 101325 ∧ 101325 < 2 ^ 49 ∧ 10 * (101325 * 2 ^ 1074) ≤ F64.maxUnits
      ∧ ∀ i, i < 10 →
          standard.pressureAt (standard.nSensor + 1 + i) = F64.fin false (101325 * 2 ^ 1074))
    ∧ marsify.calibrate standard = Res.ok (F64.fin false (101325 * 2 ^ 1074))
        (standard.adv 0 11 0 0 0 (List.replicate 11 (Event.measurements true))) :=
  ⟨by decide, ⟨by decide, by decide, by decide!, by decide!⟩,
    (calibrate_rounded_mean standard (by decide)).2 false 101325 1074 (by decide) (by decide)
      (by decide!) (by decide!)⟩

/-- C2 fails as stated: with all eleven readings equal to `100000.1` (the
binary64 `6871954545547674 * 2^-36`), the baseline `marsify` computes is
`6871954545547673 * 2^-36`, one unit in the last place below the readings (and
below their mean): the sum of ten copies is rounded. -/
theorem calibrate_constant_readings_drift :
    (∀ i, i < 11 → succeeded (hazy.sensor (hazy.nSensor + i)) = true
        ∧ hazy.pressureAt (hazy.nSensor + i) = F64.ofRat 1000001 10)
      ∧ F64.ofRat 1000001 10 = F64.fin false (6871954545547674 * 2 ^ 1038)
      ∧ (marsify.calibrate hazy).value? = some (F64.fin false (6871954545547673 * 2 ^ 1038))
      ∧ (marsify.calibrate hazy).value? ≠ some (F64.ofRat 1000001 10) := by
  decide!

/-! ## The error policy of Idle, Countdown and Marsify -/

theorem safe_of_quiet {α : Type} {x : M α} (hp : ∀ w, (x w).isPanic = false)
    (h : Emits (fun e => fatal e = false) x) : Safe x := by
  intro w
  obtain ⟨ev, htr, hq⟩ := h w
  exact ⟨ev, htr, Or.inl ⟨hp w, hq⟩⟩

theorem safe_bind {α β : Type} {x : M α} {f : α → M β}
    (hx : Safe x) (hf : ∀ a, Safe (f a)) : Safe (x >>= f) := by
  intro w
  obtain ⟨ev, htr, hcase⟩ := hx w
  cases hxw : x w with
  | ok a w1 =>
    rw [hxw] at htr hcase
    simp only [Res.world] at htr
    rcases hcase with ⟨_, hq⟩ | ⟨hp, _⟩
    · obtain ⟨ev1, htr1, hcase1⟩ := hf a w1
      refine ⟨ev ++ ev1, by rw [bind_ok hxw, htr1, htr, List.append_assoc], ?_⟩
      rw [bind_ok hxw]
      rcases hcase1 with ⟨hp1, hq1⟩ | ⟨hp1, hv1, pre, e, hev, hfe, hpre⟩
      · refine Or.inl ⟨hp1, fun e he => ?_⟩
        rcases List.mem_append.1 he with he | he
        · exact hq e he
        · exact hq1 e he
      · refine Or.inr ⟨hp1, hv1, ev ++ pre, e, by rw [hev, List.append_assoc], hfe,
          fun e1 he1 => ?_⟩
        rcases List.mem_append.1 he1 with he1 | he1
        · exact hq e1 he1
        · exact hpre e1 he1
    · simp [Res.isPanic] at hp
  | panic msg w1 =>
    rw [hxw] at htr hcase
    refine ⟨ev, by rw [bind_panic hxw]; exact htr, ?_⟩
    rw [bind_panic hxw]
    rcases hcase with ⟨hp, _⟩ | ⟨_, _, hlast⟩
    · simp [Res.isPanic] at hp
    · exact Or.inr ⟨rfl, rfl, hlast⟩
  | hang w1 =>
    rw [hxw] at htr hcase
    refine ⟨ev, by rw [bind_hang hxw]; exact htr, ?_⟩
    rw [bind_hang hxw]
    rcases hcase with ⟨_, hq⟩ | ⟨hp, _⟩
    · exact Or.inl ⟨rfl, hq⟩
    · simp [Res.isPanic] at hp

theorem safe_pure {α : Type} (a : α) : Safe (pure a : M α) :=
  safe_of_quiet (fun _ => rfl) (emits_pure a)

theorem safe_hang {α : Type} : Safe (hang : M α) :=
  safe_of_quiet (fun _ => rfl) emits_hang

theorem safe_emit (e : Event) (h : fatal e = false) : Safe (emit e) :=
  safe_of_quiet (fun _ => rfl) (emits_emit e h)

theorem safe_select : Safe select :=
  safe_of_quiet (fun _ => rfl) emits_select

theorem safe_displayClear : Safe displayClear :=
  safe_of_quiet (fun _ => rfl) (emits_displayOp _ (fun _ => rfl))

theorem safe_displaySetCursor (col row : Nat) : Safe (displaySetCursor col row) :=
  safe_of_quiet (fun _ => rfl) (emits_displayOp _ (fun _ => rfl))

theorem safe_relaySet (bank : Bank) (pin : Nat) (value : Bool) :
    Safe (relaySet bank pin value) :=
  safe_of_quiet (fun _ => rfl) (emits_relaySet _ _ _ (fun _ => rfl))

theorem safe_updateDisplay (s : Msg) : Safe (updateDisplay s) := by
  intro w
  cases h : w.displayErr w.nDisplay with
  | none =>
    rw [updateDisplay_ok s w h]
    exact ⟨[Event.displayMessage s true], rfl, Or.inl ⟨rfl, by simp [fatal]⟩⟩
  | some e =>
    rw [updateDisplay_err s w e h]
    exact ⟨[Event.displayMessage s false], rfl,
      Or.inr ⟨rfl, rfl, [], Event.displayMessage s false, rfl, rfl, by simp⟩⟩

theorem safe_readPressure : Safe readPressure := by
  intro w
  cases h : w.sensor w.nSensor with
  | ok v =>
    rw [readPressure_ok w v h]
    exact ⟨[Event.measurements true], rfl, Or.inl ⟨rfl, by simp [fatal]⟩⟩
  | error e =>
    rw [readPressure_err w e h]
    exact ⟨[Event.measurements false], rfl,
      Or.inr ⟨rfl, rfl, [], Event.measurements false, rfl, rfl, by simp⟩⟩

theorem safe_idle (m : Marsarium) : Safe (idle m) := by
  intro w
  unfold idle
  rw [bind_ok (buttonRead_run w)]
  cases h : w.button w.nButton with
  | ok o =>
    refine ⟨[Event.buttonRead true], ?_, Or.inl ⟨?_, by simp [fatal]⟩⟩
    · by_cases ho : o = 0 <;> simp [ho, succeeded, pure_run, Res.world]
    · by_cases ho : o = 0 <;> simp [ho, pure_run, Res.isPanic]
  | error e =>
    exact ⟨[Event.buttonRead false], rfl,
      Or.inr ⟨rfl, rfl, [], Event.buttonRead false, rfl, rfl, by simp⟩⟩

theorem safe_countdown_loop (fuel : Nat) : ∀ count, Safe (countdown.loop fuel count) := by
  induction fuel with
  | zero => intro count; exact safe_hang
  | succ f ih =>
    intro count
    unfold countdown.loop
    refine safe_bind safe_select (fun c => ?_)
    cases c with
    | timeChan => exact safe_emit _ rfl
    | tickChan =>
      exact safe_bind (safe_displaySetCursor _ _)
        (fun _ => safe_bind (safe_updateDisplay _) (fun _ => ih _))

theorem safe_countdown (fuel : Nat) (m : Marsarium) : Safe (countdown fuel m) := by
  unfold countdown
  repeat first
    | exact safe_pure _
    | refine safe_bind (safe_emit _ rfl) (fun _ => ?_)
    | refine safe_bind safe_displayClear (fun _ => ?_)
    | refine safe_bind (safe_displaySetCursor _ _) (fun _ => ?_)
    | refine safe_bind (safe_updateDisplay _) (fun _ => ?_)
    | refine safe_bind (safe_countdown_loop _ _) (fun _ => ?_)

theorem safe_sum (n : Nat) : ∀ acc, Safe (marsify.sum n acc) := by
  induction n with
  | zero => intro acc; exact safe_pure _
  | succ n ih =>
    intro acc
    unfold marsify.sum
    exact safe_bind safe_readPressure (fun _ => ih _)

theorem safe_calibrate : Safe marsify.calibrate := by
  unfold marsify.calibrate
  exact safe_bind safe_readPressure (fun _ => safe_bind (safe_sum 10 _) (fun _ => safe_pure _))

theorem safe_wait (cond : F64 → Bool) (fuel : Nat) : Safe (marsify.wait cond fuel) := by
  induction fuel with
  | zero => exact safe_hang
  | succ f ih =>
    unfold marsify.wait
    refine safe_bind safe_readPressure (fun p => ?_)
    split
    · exact ih
    · exact safe_pure _

theorem safe_marsify (fuel : Nat) (m : Marsarium) : Safe (marsify fuel m) := by
  unfold marsify
  repeat first
    | exact safe_pure _
    | refine safe_bind (safe_emit _ rfl) (fun _ => ?_)
    | refine safe_bind safe_displayClear (fun _ => ?_)
    | refine safe_bind (safe_displaySetCursor _ _) (fun _ => ?_)
    | refine safe_bind (safe_updateDisplay _) (fun _ => ?_)
    | refine safe_bind safe_calibrate (fun _ => ?_)
    | refine safe_bind (safe_wait _ _) (fun _ => ?_)
    | refine safe_bind (safe_relaySet _ _ _) (fun _ => ?_)

/-- C7, as the code has it: in the Idle, Countdown and Marsify states the
operations whose error is checked are the button read, the sensor read of
`readPressure` and the display message write of `updateDisplay`. When one of
them reports a failure the state function panics at once: it returns no next
state, the failing operation is the last one in the trace, and the loop of
`main` ends with the same panic in the same world. Without such a failure these
states do not panic. -/
theorem checked_failure_aborts (fuel : Nat) (s : StateFn) (m : Marsarium) (w : World)
    (hs : s ≠ StateFn.monitor) :
    (∃ ev, (step fuel s m w).world.trace = w.trace ++ ev
      ∧ (((step fuel s m w).isPanic = false ∧ ∀ e ∈ ev, fatal e = false)
        ∨ ((step fuel s m w).isPanic = true ∧ (step fuel s m w).value? = none
            ∧ ∃ pre e, ev = pre ++ [e] ∧ fatal e = true ∧ ∀ e1 ∈ pre, fatal e1 = false)))
    ∧ ∀ n msg w1, step fuel s m w = Res.panic msg w1 →
        mainLoop fuel (n + 1) s m w = Res.panic msg w1 := by
  constructor
  · cases s with
    | idle => exact safe_idle m w
    | countdown => exact safe_countdown fuel m w
    | marsify => exact safe_marsify fuel m w
    | monitor => exact absurd rfl hs
  · intro n msg w1 h
    show (step fuel s m >>= fun r => mainLoop fuel n r.1 r.2) w = _
    exact bind_panic h

/-- C7 as the code has it, in Idle with a button whose read fails: `idle`
panics right after the read. -/
theorem checked_failure_aborts_witness :
    StateFn.idle ≠ StateFn.monitor
    ∧ (step 0 StateFn.idle m0 buttonDown).isPanic = true
    ∧ ((∃ ev, (step 0 StateFn.idle m0 buttonDown).world.trace = buttonDown.trace ++ ev
        ∧ (((step 0 StateFn.idle m0 buttonDown).isPanic = false ∧ ∀ e ∈ ev, fatal e = false)
          ∨ ((step 0 StateFn.idle m0 buttonDown).isPanic = true
              ∧ (step 0 StateFn.idle m0 buttonDown).value? = none
              ∧ ∃ pre e, ev = pre ++ [e] ∧ fatal e = true ∧ ∀ e1 ∈ pre, fatal e1 = false)))
      ∧ ∀ n msg w1, step 0 StateFn.idle m0 buttonDown = Res.panic msg w1 →
          mainLoop 0 (n + 1) StateFn.idle m0 buttonDown = Res.panic msg w1) :=
  ⟨by decide, by decide, checked_failure_aborts 0 StateFn.idle m0 buttonDown (by decide)⟩

/-- C7 fails as stated: when `Display.Clear()` reports an error in Countdown,
the error is dropped: `countdown` goes on with seven more operations and
returns the `marsify` state. -/
theorem countdown_ignores_failed_clear :
    (countdown 10 m0 clearFails).value? = some (StateFn.marsify, m0)
      ∧ (countdown 10 m0 clearFails).world.trace
        = [Event.newTicker 1, Event.newTimer 5, Event.displayClear false,
            Event.displaySetCursor 0 0 true,
            Event.displayMessage (Msg.text "Godspeed little fern") true,
            Event.displaySetCursor 0 3 true,
            Event.displayMessage (Msg.text "Marsification in 5") true, Event.tickerStop] := by
  decide!

/-! ## The blinker and its stop signal -/

theorem signals_append (l1 l2 : List Event) :
    signals (l1 ++ l2) = signals l1 ++ signals l2 := by
  induction l1 with
  | nil => rfl
  | cons e t ih => cases e <;> simp [signals, ih]

theorem signals_bind {α β : Type} {l1 l2 : List Event} {x : M α} {f : α → M β}
    (hx : Signals l1 x) (hf : ∀ a, Signals l2 (f a)) : Signals (l1 ++ l2) (x >>= f) := by
  intro w b w2 h
  obtain ⟨a, w1, h1, h2⟩ := bind_ok_inv h
  rw [hf a w1 b w2 h2, hx w a w1 h1, List.append_assoc]

theorem signals_bind_quiet {α β : Type} {l : List Event} {x : M α} {f : α → M β}
    (hx : Signals [] x) (hf : ∀ a, Signals l (f a)) : Signals l (x >>= f) := by
  simpa using signals_bind hx hf

theorem signals_bind_relay {β : Type} {l : List Event} (bank : Bank) (pin : Nat) (value : Bool)
    {f : Option String → M β} (hf : ∀ a, Signals l (f a)) :
    Signals (Event.relaySet bank pin value true :: l) (relaySet bank pin value >>= f) := by
  have hx : Signals [Event.relaySet bank pin value true] (relaySet bank pin value) := by
    intro w a w1 h
    rw [relaySet_run] at h
    cases h
    simp [signals_append, signals]
  simpa using signals_bind hx hf

theorem signals_bind_go {β : Type} {l : List Event} {f : Unit → M β}
    (hf : ∀ a, Signals l (f a)) :
    Signals (Event.goBlinker :: l) (emit Event.goBlinker >>= f) := by
  have hx : Signals [Event.goBlinker] (emit Event.goBlinker) := by
    intro w a w1 h
    rw [emit_run] at h
    cases h
    simp [signals_append, signals]
  simpa using signals_bind hx hf

theorem signals_bind_stop {β : Type} {l : List Event} {f : Unit → M β}
    (hf : ∀ a, Signals l (f a)) :
    Signals (Event.stopSend :: l) (emit Event.stopSend >>= f) := by
  have hx : Signals [Event.stopSend] (emit Event.stopSend) := by
    intro w a w1 h
    rw [emit_run] at h
    cases h
    simp [signals_append, signals]
  simpa using signals_bind hx hf

theorem signals_pure {α : Type} (a : α) : Signals [] (pure a : M α) := by
  intro w b w1 h
  rw [pure_run] at h
  cases h
  simp

theorem signals_of_emits {α : Type} {x : M α}
    (h : Emits (fun e => signals [e] = []) x) : Signals [] x := by
  intro w a w1 hrun
  obtain ⟨ev, htr, hno⟩ := h w
  rw [hrun] at htr
  simp only [Res.world] at htr
  have hev : signals ev = [] := by
    clear htr
    induction ev with
    | nil => rfl
    | cons e t ih =>
      have he := hno e (List.mem_cons_self _ _)
      have ht := ih (fun e1 h1 => hno e1 (List.mem_cons_of_mem _ h1))
      rw [show e :: t = [e] ++ t from rfl, signals_append, he, ht]
      rfl
  rw [htr, signals_append, hev, List.append_nil]

theorem signals_marsify (fuel : Nat) (m : Marsarium) :
    Signals [Event.goBlinker, Event.relaySet Bank.aux 3 true true,
      Event.relaySet Bank.gas 0 true true, Event.relaySet Bank.gas 1 true true,
      Event.relaySet Bank.gas 1 false true, Event.relaySet Bank.gas 0 false true,
      Event.relaySet Bank.aux 3 false true, Event.relaySet Bank.gas 2 true true,
      Event.relaySet Bank.gas 2 false true, Event.relaySet Bank.gas 3 true true,
      Event.relaySet Bank.gas 3 false true, Event.stopSend] (marsify fuel m) := by
  unfold marsify
  repeat first
    | exact signals_pure _
    | refine signals_bind_relay _ _ _ (fun _ => ?_)
    | refine signals_bind_go (fun _ => ?_)
    | refine signals_bind_stop (fun _ => ?_)
    | refine signals_bind_quiet (signals_of_emits (by
        first
        | exact emits_displayOp _ (by simp [signals])
        | exact emits_updateDisplay _ (by simp [signals])
        | exact emits_emit _ (by simp [signals])
        | exact emits_calibrate (by simp [signals])
        | exact emits_wait (by simp [signals]) _ _)) (fun _ => ?_)

theorem blinker_stopped (aux : Nat → Bool) (tr : List Event) (cs : List BlinkCase) :
    blinker ⟨aux, tr, false⟩ cs = ⟨aux, tr, false⟩ := by
  induction cs with
  | nil => rfl
  | cons c t ih =>
    show blinker (blinkerCase ⟨aux, tr, false⟩ c) t = _
    simpa [blinkerCase] using ih

theorem blinkerCase_tick (aux : Nat → Bool) (tr : List Event) :
    blinkerCase ⟨aux, tr, true⟩ BlinkCase.tick
      = ⟨Function.update aux BUTTON_RELAY (!aux BUTTON_RELAY),
          tr ++ [Event.relayGet Bank.aux BUTTON_RELAY (aux BUTTON_RELAY),
            Event.relaySet Bank.aux BUTTON_RELAY (!aux BUTTON_RELAY) true], true⟩ := rfl

theorem blinker_cons (b : Blinker) (c : BlinkCase) (cs : List BlinkCase) :
    blinker b (c :: cs) = blinker (blinkerCase b c) cs := rfl

theorem blinker_ticks (k : Nat) : ∀ (aux : Nat → Bool) (tr : List Event),
    (blinker ⟨aux, tr, true⟩ (List.replicate k BlinkCase.tick)).trace.length
        = tr.length + 2 * k := by
  induction k with
  | zero => intro aux tr; rfl
  | succ k ih =>
    intro aux tr
    rw [List.replicate_succ, blinker_cons, blinkerCase_tick, ih]
    simp only [List.length_append, List.length_cons, List.length_nil]
    omega

/-- C9: a running blinker that takes a tick reads the indicator relay (pin
`BUTTON_RELAY` of the auxiliary bank), gets its state `s`, writes `!s` to the
same pin, and does nothing else; `k` ticks are `k` reads and `k` writes; two
ticks in a row restore the relays, also when the control thread writes another
pin of the bank in between. Once the blinker has taken the stop case it has
returned: whatever cases follow, it issues no operation and changes nothing.
In a run of `marsify` that returns, the blinker is started before the first
relay write and the stop signal is sent once, right after the Ar relay is
closed. -/
theorem blinker_toggles_until_stopped (aux : Nat → Bool) (tr : List Event) (fuel : Nat)
    (m : Marsarium) (w : World) (hdone : (marsify fuel m w).value?.isSome = true) :
    blinkerCase ⟨aux, tr, true⟩ BlinkCase.tick
        = ⟨Function.update aux BUTTON_RELAY (!aux BUTTON_RELAY),
            tr ++ [Event.relayGet Bank.aux BUTTON_RELAY (aux BUTTON_RELAY),
              Event.relaySet Bank.aux BUTTON_RELAY (!aux BUTTON_RELAY) true], true⟩
      ∧ (∀ k, (blinker ⟨aux, tr, true⟩ (List.replicate k BlinkCase.tick)).trace.length
          = tr.length + 2 * k)
      ∧ (blinker ⟨aux, tr, true⟩ [BlinkCase.tick, BlinkCase.tick]).aux = aux
      ∧ (∀ pin value, pin ≠ BUTTON_RELAY →
          (blinkerCase ((blinkerCase ⟨aux, tr, true⟩ BlinkCase.tick).auxWrite pin value)
            BlinkCase.tick).aux BUTTON_RELAY = aux BUTTON_RELAY)
      ∧ (∀ cs, blinker (blinkerCase ⟨aux, tr, true⟩ BlinkCase.stop) cs = ⟨aux, tr, false⟩)
      ∧ signals (marsify fuel m w).world.trace = signals w.trace ++
          [Event.goBlinker, Event.relaySet Bank.aux 3 true true,
            Event.relaySet Bank.gas 0 true true, Event.relaySet Bank.gas 1 true true,
            Event.relaySet Bank.gas 1 false true, Event.relaySet Bank.gas 0 false true,
            Event.relaySet Bank.aux 3 false true, Event.relaySet Bank.gas 2 true true,
            Event.relaySet Bank.gas 2 false true, Event.relaySet Bank.gas 3 true true,
            Event.relaySet Bank.gas 3 false true, Event.stopSend] := by
  refine ⟨rfl, fun k => blinker_ticks k aux tr, ?_, ?_, ?_, ?_⟩
  · funext i
    simp only [blinker, List.foldl, blinkerCase, Function.update]
    by_cases hi : i = BUTTON_RELAY <;> simp [hi]
  · intro pin value hpin
    simp [blinkerCase, Blinker.auxWrite, Function.update, hpin.symm]
  · intro cs
    exact blinker_stopped aux tr cs
  · cases hrun : marsify fuel m w with
    | ok a w1 => exact signals_marsify fuel m w a w1 hrun
    | panic msg w1 => simp [hrun, Res.value?] at hdone
    | hang w1 => simp [hrun, Res.value?] at hdone

/-- C9, with all relays off at the start and the hardware of a full run. -/
theorem blinker_toggles_until_stopped_witness :
    (marsify 10 m0 fill).value?.isSome = true
    ∧ (blinkerCase ⟨fun _ => false, [], true⟩ BlinkCase.tick
        = ⟨Function.update (fun _ => false) BUTTON_RELAY (!(fun _ => false) BUTTON_RELAY),
            [] ++ [Event.relayGet Bank.aux BUTTON_RELAY ((fun _ => false) BUTTON_RELAY),
              Event.relaySet Bank.aux BUTTON_RELAY (!(fun _ => false) BUTTON_RELAY) true], true⟩
      ∧ (∀ k, (blinker ⟨fun _ => false, [], true⟩
          (List.replicate k BlinkCase.tick)).trace.length = ([] : List Event).length + 2 * k)
      ∧ (blinker ⟨fun _ => false, [], true⟩ [BlinkCase.tick, BlinkCase.tick]).aux
          = (fun _ => false)
      ∧ (∀ pin value, pin ≠ BUTTON_RELAY →
          (blinkerCase ((blinkerCase ⟨fun _ => false, [], true⟩ BlinkCase.tick).auxWrite
            pin value) BlinkCase.tick).aux BUTTON_RELAY = (fun _ => false) BUTTON_RELAY)
      ∧ (∀ cs, blinker (blinkerCase ⟨fun _ => false, [], true⟩ BlinkCase.stop) cs
          = ⟨fun _ => false, [], false⟩)
      ∧ signals (marsify 10 m0 fill).world.trace = signals fill.trace ++
          [Event.goBlinker, Event.relaySet Bank.aux 3 true true,
            Event.relaySet Bank.gas 0 true true, Event.relaySet Bank.gas 1 true true,
            Event.relaySet Bank.gas 1 false true, Event.relaySet Bank.gas 0 false true,
            Event.relaySet Bank.aux 3 false true, Event.relaySet Bank.gas 2 true true,
            Event.relaySet Bank.gas 2 false true, Event.relaySet Bank.gas 3 true true,
            Event.relaySet Bank.gas 3 false true, Event.stopSend]) :=
  ⟨by decide!,
    blinker_toggles_until_stopped (fun _ => false) [] 10 m0 fill (by decide!)⟩

end Mars
